import Mathlib

/-!
Verification of the heart-rate monitor's device connection lifecycle manager.

The development shallowly embeds the delegate logic of
`ble_hr_corebluetooth.py` (class `HRDelegate`) together with the heart-rate
measurement decoders of `ble_hr_gatt.py` and `apple_watch_probe.py`.

Modelling conventions:
- Python `dict`s keyed by device-id strings become association lists
  (`List (DeviceId × α)`) with `dlookup` / `dictSet` / `dictErase`
  mirroring `d.get`, `d[k] = v` and `del d[k]`.
- Python `set`s of ids become duplicate-free lists with `setAdd` / `setRemove`
  mirroring `s.add` and guarded `s.remove`.
- `time.time()` values become integers (`Time := Int`); each transport
  callback and scheduler tick carries the clock value observed when it runs.
- Every delegate method that talks to the transport returns, besides the
  updated state, the list of outgoing transport requests (`Act`) it issued.
-/

abbrev DeviceId := String

abbrev Time := Int

/-- Association-list lookup, mirroring Python `d.get(k)`. -/
def dlookup {α : Type} : List (DeviceId × α) → DeviceId → Option α
  | [], _ => none
  | (k', v) :: rest, k => if k' = k then some v else dlookup rest k

/-- Association-list update, mirroring Python `d[k] = v` (update in place if
the key is present, append otherwise, preserving insertion order). -/
def dictSet {α : Type} : List (DeviceId × α) → DeviceId → α → List (DeviceId × α)
  | [], k, v => [(k, v)]
  | (k', v') :: rest, k, v =>
      if k' = k then (k, v) :: rest else (k', v') :: dictSet rest k v

/-- Association-list deletion, mirroring Python `del d[k]` on a dict with
unique keys. -/
def dictErase {α : Type} : List (DeviceId × α) → DeviceId → List (DeviceId × α)
  | [], _ => []
  | (k', v') :: rest, k =>
      if k' = k then dictErase rest k else (k', v') :: dictErase rest k

/-- Set insertion, mirroring Python `s.add(x)`. -/
def setAdd (l : List DeviceId) (x : DeviceId) : List DeviceId :=
  if x ∈ l then l else l ++ [x]

/-- Set removal, mirroring Python `if x in s: s.remove(x)`. -/
def setRemove : List DeviceId → DeviceId → List DeviceId
  | [], _ => []
  | y :: rest, x => if y = x then setRemove rest x else y :: setRemove rest x

theorem dlookup_dictSet_self {α : Type} (m : List (DeviceId × α)) (k : DeviceId) (v : α) :
    dlookup (dictSet m k v) k = some v := by
  induction m with
  | nil => simp [dictSet, dlookup]
  | cons p rest ih =>
      by_cases h : p.1 = k
      · simp [dictSet, h, dlookup]
      · simp [dictSet, h, dlookup, ih]

theorem dlookup_dictSet_ne {α : Type} (m : List (DeviceId × α)) (k k' : DeviceId) (v : α)
    (h : k' ≠ k) : dlookup (dictSet m k v) k' = dlookup m k' := by
  have hkk : ¬ k = k' := fun e => h e.symm
  induction m with
  | nil => simp [dictSet, dlookup, hkk]
  | cons p rest ih =>
      rcases p with ⟨a, b⟩
      by_cases hp : a = k
      · subst hp
        simp [dictSet, dlookup, hkk]
      · by_cases hp' : a = k'
        · subst hp'
          simp [dictSet, dlookup, hp]
        · simp [dictSet, dlookup, hp, hp', ih]

theorem dlookup_dictErase_self {α : Type} (m : List (DeviceId × α)) (k : DeviceId) :
    dlookup (dictErase m k) k = none := by
  induction m with
  | nil => simp [dictErase, dlookup]
  | cons p rest ih =>
      by_cases h : p.1 = k
      · simp [dictErase, h, ih]
      · simp [dictErase, h, dlookup, ih]

theorem dlookup_dictErase_ne {α : Type} (m : List (DeviceId × α)) (k k' : DeviceId)
    (h : k' ≠ k) : dlookup (dictErase m k) k' = dlookup m k' := by
  have hkk : ¬ k = k' := fun e => h e.symm
  induction m with
  | nil => simp [dictErase]
  | cons p rest ih =>
      rcases p with ⟨a, b⟩
      by_cases hp : a = k
      · subst hp
        simp [dictErase, dlookup, hkk, ih]
      · by_cases hp' : a = k'
        · subst hp'
          simp [dictErase, dlookup, hp]
        · simp [dictErase, dlookup, hp, hp', ih]

theorem dlookup_isSome_of_mem {α : Type} {m : List (DeviceId × α)} {k : DeviceId} {v : α}
    (h : (k, v) ∈ m) : (dlookup m k).isSome := by
  induction m with
  | nil => simp at h
  | cons p rest ih =>
      rcases List.mem_cons.mp h with h1 | h2
      · subst h1; simp [dlookup]
      · by_cases hp : p.1 = k
        · simp [dlookup, hp]
        · simp [dlookup, hp, ih h2]

theorem dlookup_of_nodup_mem {α : Type} {m : List (DeviceId × α)} {k : DeviceId} {v : α}
    (hnd : (m.map Prod.fst).Nodup) (h : (k, v) ∈ m) : dlookup m k = some v := by
  induction m with
  | nil => simp at h
  | cons p rest ih =>
      simp only [List.map_cons, List.nodup_cons] at hnd
      rcases List.mem_cons.mp h with h1 | h2
      · subst h1; simp [dlookup]
      · have hk : p.1 ≠ k := by
          intro e
          exact hnd.1 (e ▸ List.mem_map_of_mem Prod.fst h2)
        simp [dlookup, hk, ih hnd.2 h2]

theorem dlookup_eq_none_iff {α : Type} (m : List (DeviceId × α)) (k : DeviceId) :
    dlookup m k = none ↔ k ∉ m.map Prod.fst := by
  induction m with
  | nil => simp [dlookup]
  | cons p rest ih =>
      rcases p with ⟨a, b⟩
      by_cases hp : a = k
      · subst hp
        simp [dlookup]
      · have hk : ¬ k = a := fun e => hp e.symm
        simp [dlookup, hp, ih, hk]

theorem dlookup_map_constval {α β : Type} (m : List (DeviceId × α)) (k : DeviceId) (c : β) :
    dlookup (m.map (fun p => (p.1, c))) k = (dlookup m k).map (fun _ => c) := by
  induction m with
  | nil => simp [dlookup]
  | cons p rest ih =>
      by_cases hp : p.1 = k
      · simp [dlookup, hp]
      · simp [dlookup, hp, ih]

theorem mem_setAdd (l : List DeviceId) (x y : DeviceId) :
    y ∈ setAdd l x ↔ y ∈ l ∨ y = x := by
  by_cases h : x ∈ l
  · constructor
    · intro hy
      simp only [setAdd, if_pos h] at hy
      exact Or.inl hy
    · intro hy
      simp only [setAdd, if_pos h]
      rcases hy with hy | hy
      · exact hy
      · exact hy ▸ h
  · simp [setAdd, h]

theorem length_setAdd_le (l : List DeviceId) (x : DeviceId) :
    (setAdd l x).length ≤ l.length + 1 := by
  by_cases h : x ∈ l
  · simp [setAdd, h]
  · simp [setAdd, h]

theorem setRemove_cons_self (rest : List DeviceId) (x : DeviceId) :
    setRemove (x :: rest) x = setRemove rest x := by
  simp [setRemove]

theorem setRemove_cons_ne (rest : List DeviceId) (a x : DeviceId) (h : ¬ a = x) :
    setRemove (a :: rest) x = a :: setRemove rest x := by
  simp [setRemove, h]

theorem mem_setRemove (l : List DeviceId) (x y : DeviceId) :
    y ∈ setRemove l x ↔ y ∈ l ∧ y ≠ x := by
  induction l with
  | nil => simp [setRemove]
  | cons a rest ih =>
      by_cases h : a = x
      · subst h
        rw [setRemove_cons_self, ih]
        constructor
        · rintro ⟨h1, h2⟩; exact ⟨List.mem_cons_of_mem _ h1, h2⟩
        · rintro ⟨h1, h2⟩
          rcases List.mem_cons.mp h1 with h3 | h3
          · exact absurd h3 h2
          · exact ⟨h3, h2⟩
      · rw [setRemove_cons_ne rest a x h, List.mem_cons, ih]
        constructor
        · rintro (h1 | ⟨h1, h2⟩)
          · exact ⟨h1 ▸ List.mem_cons_self a rest, h1 ▸ h⟩
          · exact ⟨List.mem_cons_of_mem _ h1, h2⟩
        · rintro ⟨h1, h2⟩
          rcases List.mem_cons.mp h1 with h3 | h3
          · exact Or.inl h3
          · exact Or.inr ⟨h3, h2⟩

theorem length_setRemove_le (l : List DeviceId) (x : DeviceId) :
    (setRemove l x).length ≤ l.length := by
  induction l with
  | nil => simp [setRemove]
  | cons a rest ih =>
      by_cases h : a = x
      · rw [h, setRemove_cons_self]
        simp only [List.length_cons]
        omega
      · rw [setRemove_cons_ne rest a x h]
        simp only [List.length_cons]
        omega

theorem length_setRemove_of_mem {l : List DeviceId} {x : DeviceId} (h : x ∈ l) :
    (setRemove l x).length + 1 ≤ l.length := by
  induction l with
  | nil => simp at h
  | cons a rest ih =>
      by_cases ha : a = x
      · have h1 := length_setRemove_le rest x
        rw [ha, setRemove_cons_self]
        simp only [List.length_cons]
        omega
      · have hx : x ∈ rest := by
          rcases List.mem_cons.mp h with h1 | h1
          · exact absurd h1.symm ha
          · exact h1
        have h2 := ih hx
        rw [setRemove_cons_ne rest a x ha]
        simp only [List.length_cons]
        omega

/-! ## The heart-rate measurement decoders

One copy per source file; the bodies are the line-by-line translations of the
three Python `parse_hr_measurement` functions, which are textually identical
up to an intermediate variable in `ble_hr_gatt.py`. -/

namespace BleCB

/-- `parse_hr_measurement` from `ble_hr_corebluetooth.py`. -/
def parse_hr_measurement : List Nat → Option Nat
  | [] => none
  | [_] => none
  | flags :: b1 :: rest =>
      if flags % 2 = 1 then
        match rest with
        | [] => none
        | b2 :: _ => some (b1 + 256 * b2)
      else some b1

end BleCB

namespace BleGatt

/-- `parse_hr_measurement` from `ble_hr_gatt.py`. -/
def parse_hr_measurement : List Nat → Option Nat
  | [] => none
  | [_] => none
  | flags :: b1 :: rest =>
      if flags % 2 = 1 then
        match rest with
        | [] => none
        | b2 :: _ =>
            let hr := b1 + 256 * b2
            some hr
      else some b1

end BleGatt

namespace AppleWatchProbe

/-- `parse_hr_measurement` from `apple_watch_probe.py`. -/
def parse_hr_measurement : List Nat → Option Nat
  | [] => none
  | [_] => none
  | flags :: b1 :: rest =>
      if flags % 2 = 1 then
        match rest with
        | [] => none
        | b2 :: _ => some (b1 + 256 * b2)
      else some b1

end AppleWatchProbe

/-- C4: every decoder returns no value on payloads shorter than 2 bytes;
with bit 0 of the flags byte set it needs at least 3 bytes and returns the
16-bit little-endian value of bytes 1-2; with bit 0 clear it returns byte 1;
and the three decoders are extensionally identical. -/
theorem claim_C4_decoder_contract (data : List Nat) :
    (data.length < 2 → BleCB.parse_hr_measurement data = none)
    ∧ (∀ flags b1 rest, data = flags :: b1 :: rest → flags % 2 = 1 →
        (rest = [] → BleCB.parse_hr_measurement data = none)
        ∧ (∀ b2 r, rest = b2 :: r →
            BleCB.parse_hr_measurement data = some (b1 + 256 * b2)))
    ∧ (∀ flags b1 rest, data = flags :: b1 :: rest → flags % 2 = 0 →
        BleCB.parse_hr_measurement data = some b1)
    ∧ BleGatt.parse_hr_measurement data = BleCB.parse_hr_measurement data
    ∧ AppleWatchProbe.parse_hr_measurement data = BleCB.parse_hr_measurement data := by
  refine ⟨?_, ?_, ?_, ?_, ?_⟩
  · intro h
    match data with
    | [] => rfl
    | [_] => rfl
    | _ :: _ :: t =>
        exfalso
        simp only [List.length_cons] at h
        omega
  · rintro flags b1 rest rfl hbit
    refine ⟨?_, ?_⟩
    · rintro rfl
      simp [BleCB.parse_hr_measurement, hbit]
    · rintro b2 r rfl
      simp [BleCB.parse_hr_measurement, hbit]
  · rintro flags b1 rest rfl hbit
    have : ¬ flags % 2 = 1 := by omega
    cases rest with
    | nil => simp [BleCB.parse_hr_measurement, this]
    | cons b2 r => simp [BleCB.parse_hr_measurement, this]
  · match data with
    | [] => rfl
    | [_] => rfl
    | flags :: b1 :: rest =>
        cases rest with
        | nil => rfl
        | cons b2 r => rfl
  · match data with
    | [] => rfl
    | [_] => rfl
    | flags :: b1 :: rest =>
        cases rest with
        | nil => rfl
        | cons b2 r => rfl

/-- Witness for C4 at concrete payloads: `[0x01, 0x48, 0x00]` decodes to 72
via the 16-bit branch, and a 1-byte payload decodes to nothing. -/
theorem claim_C4_decoder_contract_witness :
    BleCB.parse_hr_measurement [1, 72, 0] = some (72 + 256 * 0)
    ∧ BleCB.parse_hr_measurement [5] = none := by
  refine ⟨?_, ?_⟩
  · exact ((claim_C4_decoder_contract [1, 72, 0]).2.1 1 72 [0] rfl (by decide)).2 0 [] rfl
  · exact (claim_C4_decoder_contract [5]).1 (by decide)

/-! ## Delegate state and transport actions

`DState` holds the mutable attributes set up in `HRDelegate.init` plus the
configuration installed by `set_output` / `set_filters` / `set_preferred`.
`hasCentral` models `self.central is not None`; `poweredOn` models
`self.central.state() == CBManagerStatePoweredOn` as last reported by the
`centralManagerDidUpdateState_` callback.  The `peripherals` dict caches
opaque handles, so only its key set is modelled.  `outfile` models
`self.outfile is not None`. -/

structure DState where
  hasCentral : Bool
  poweredOn : Bool
  peripherals : List DeviceId
  connected_ids : List DeviceId
  connecting_ids : List DeviceId
  name_by_id : List (DeviceId × String)
  connected : Bool
  scanning : Bool
  last_scan_start : Option Time
  pending_reconnect : List (DeviceId × Time)
  reconnect_interval : Time
  blocked_ids : List (DeviceId × Time)
  blocked_ttl : Time
  outfile : Bool
  name_filters : List String
  id_filters : List String
  preferred_names : List String
  preferred_grace : Time
  max_devices : Option Nat
  scan_all : Bool
  deriving DecidableEq, Repr

/-- Outgoing transport requests issued by the delegate. -/
inductive Act where
  | scanStart
  | scanStop
  | connectReq (id : DeviceId)
  | cancelConn (id : DeviceId)
  | discoverServicesReq (id : DeviceId)
  | discoverCharsReq (id : DeviceId)
  | setNotify (id : DeviceId)
  | writeHR (bpm : Nat) (source : String) (id : DeviceId)
  deriving DecidableEq, Repr

/-- UUID string of the Heart Rate service (`HR_SERVICE`). -/
def HR_SERVICE : String := "180D"

/-- UUID string of the Heart Rate Measurement characteristic (`HR_MEAS`). -/
def HR_MEAS : String := "2A37"

/-- `HRDelegate.init`: the freshly initialized delegate state. -/
def hrDelegateInit : DState where
  hasCentral := false
  poweredOn := false
  peripherals := []
  connected_ids := []
  connecting_ids := []
  name_by_id := []
  connected := false
  scanning := false
  last_scan_start := none
  pending_reconnect := []
  reconnect_interval := 5
  blocked_ids := []
  blocked_ttl := 60
  outfile := false
  name_filters := []
  id_filters := []
  preferred_names := []
  preferred_grace := 6
  max_devices := none
  scan_all := false

/-- Python `str.lower()` as a character-wise map (ASCII-adequate). -/
def strLower (s : String) : String :=
  String.mk (s.data.map Char.toLower)

/-- `HRDelegate.set_filters`. -/
def set_filters (s : DState) (names ids : List String) (maxd : Option Nat)
    (scanAll : Bool) : DState :=
  { s with
    name_filters := (names.filter (fun n => !n.isEmpty)).map strLower
    id_filters := (ids.filter (fun i => !i.isEmpty)).map strLower
    max_devices := maxd
    scan_all := scanAll }

/-- `HRDelegate.set_preferred`. -/
def set_preferred (s : DState) (names : List String) (grace : Time) : DState :=
  { s with
    preferred_names := (names.filter (fun n => !n.isEmpty)).map strLower
    preferred_grace := grace }

/-- Python truthiness of an optional string (`None` and `""` are falsy). -/
def pyTruthy : Option String → Bool
  | none => false
  | some s => !s.isEmpty

/-- Substring containment on the character lists of two strings, modelling
Python's `needle in hay`.  `chPre n h` holds when `n` is an initial segment
of `h`. -/
def chPre : List Char → List Char → Bool
  | [], _ => true
  | _ :: _, [] => false
  | a :: as, b :: bs => a = b && chPre as bs

/-- `chSub n h`: `n` occurs contiguously inside `h`. -/
def chSub : List Char → List Char → Bool
  | n, [] => n.isEmpty
  | n, c :: cs => chPre n (c :: cs) || chSub n cs

/-- `strHasSub hay needle` models Python `needle in hay`. -/
def strHasSub (hay needle : String) : Bool :=
  chSub needle.data hay.data

/-- `HRDelegate._start_scan`.  The scan-start timestamp records the clock at
the moment the scan request is issued. -/
def startScan (s : DState) (now : Time) : DState × List Act :=
  if !s.hasCentral || s.scanning then (s, [])
  else ({ s with scanning := true, last_scan_start := some now }, [Act.scanStart])

/-- `HRDelegate._stop_scan`. -/
def stopScan (s : DState) : DState × List Act :=
  if !s.hasCentral || !s.scanning then (s, [])
  else ({ s with scanning := false, last_scan_start := none }, [Act.scanStop])

/-- `HRDelegate._schedule_reconnect` (stderr printing omitted). -/
def schedule_reconnect (s : DState) (id : DeviceId) (now : Time) : DState :=
  if (dlookup s.pending_reconnect id).isSome then s
  else { s with pending_reconnect := dictSet s.pending_reconnect id (now + s.reconnect_interval) }

/-- `HRDelegate._reset_reconnect`. -/
def reset_reconnect (s : DState) (id : DeviceId) : DState :=
  { s with pending_reconnect := dictErase s.pending_reconnect id }

/-- `HRDelegate._at_capacity`. -/
def at_capacity (s : DState) : Bool :=
  match s.max_devices with
  | none => false
  | some m => decide (m ≤ s.connected_ids.length + s.connecting_ids.length)

/-- `HRDelegate._block_device` (stderr printing omitted). -/
def block_device (s : DState) (id : DeviceId) (now : Time) : DState :=
  { s with
    blocked_ids := dictSet s.blocked_ids id (now + s.blocked_ttl)
    pending_reconnect := dictErase s.pending_reconnect id }

/-- The filter portion of `HRDelegate._match_device` (the id-substring and
name-substring checks after the blocklist test). -/
def matchFilters (s : DState) (id : DeviceId) (devName advName : Option String) : Bool :=
  (s.id_filters.isEmpty || s.id_filters.any (fun want => strHasSub (strLower id) want))
  && (s.name_filters.isEmpty
      || s.name_filters.any (fun want =>
          strHasSub (strLower (devName.getD "")) want
          || strHasSub (strLower (advName.getD "")) want))

/-- `HRDelegate._match_device`: checks the blocklist (lazily dropping an
expired entry) and then the configured filters.  `devName` is
`peripheral.name()`, `advName` the advertised local name. -/
def match_device (s : DState) (id : DeviceId) (devName advName : Option String)
    (now : Time) : DState × Bool :=
  match dlookup s.blocked_ids id with
  | some u =>
      if now < u then (s, false)
      else
        let s' := { s with blocked_ids := dictErase s.blocked_ids id }
        (s', matchFilters s' id devName advName)
  | none => (s, matchFilters s id devName advName)

/-- `HRDelegate._is_preferred`. -/
def is_preferred (s : DState) (devName advName : Option String) : Bool :=
  if s.preferred_names.isEmpty then false
  else s.preferred_names.any (fun want =>
    strHasSub (strLower (devName.getD "")) want
    || strHasSub (strLower (advName.getD "")) want)

/-- `HRDelegate._should_defer_non_preferred`. -/
def should_defer (s : DState) (now : Time) : Bool :=
  if s.preferred_names.isEmpty then false
  else
    match s.last_scan_start with
    | none => false
    | some t => decide (now - t < s.preferred_grace)

/-- The effect of `HRDelegate._update_name` on the `name_by_id` dict: an
advertised local name wins within a single callback; otherwise a truthy
device name is cached; otherwise the dict is untouched. -/
def update_name_map (nm : List (DeviceId × String)) (id : DeviceId)
    (devName advName : Option String) : List (DeviceId × String) :=
  if pyTruthy advName then dictSet nm id (advName.getD "")
  else if pyTruthy devName then dictSet nm id (devName.getD "")
  else nm

/-- `HRDelegate._update_name` (it only assigns into `self.name_by_id`). -/
def update_name (s : DState) (id : DeviceId) (devName advName : Option String) : DState :=
  { s with name_by_id := update_name_map s.name_by_id id devName advName }

/-- `HRDelegate._connect_peripheral`. -/
def connect_peripheral (s : DState) (id : DeviceId) (devName advName : Option String) :
    DState × List Act :=
  if id ∈ s.connected_ids ∨ id ∈ s.connecting_ids then (s, [])
  else
    let s1 := { s with peripherals := setAdd s.peripherals id }
    let s2 := update_name s1 id devName advName
    let s3 := { s2 with connecting_ids := setAdd s2.connecting_ids id }
    (s3, [Act.connectReq id])

/-! ## Transport callbacks and the reconnect tick -/

/-- `centralManager_didDiscoverPeripheral_advertisementData_RSSI_`.
`devName` is `peripheral.name()`, `advName` the `kCBAdvDataLocalName` entry of
the advertisement data. -/
def didDiscover (s : DState) (id : DeviceId) (devName advName : Option String)
    (now : Time) : DState × List Act :=
  let s1 := { s with peripherals := setAdd s.peripherals id }
  let s2 := update_name s1 id devName advName
  let m := match_device s2 id devName advName now
  if !m.2 then (m.1, [])
  else if !(is_preferred m.1 devName advName) && should_defer m.1 now then (m.1, [])
  else if at_capacity m.1 then (m.1, [])
  else connect_peripheral m.1 id devName advName

/-- `centralManager_didConnectPeripheral_`. -/
def didConnect (s : DState) (id : DeviceId) : DState × List Act :=
  let s1 := { s with connected := true, connected_ids := setAdd s.connected_ids id }
  let s2 := { s1 with connecting_ids := setRemove s1.connecting_ids id }
  let s3 := reset_reconnect s2 id
  (s3, [Act.discoverServicesReq id])

/-- `centralManager_didFailToConnectPeripheral_error_`. -/
def didFail (s : DState) (id : DeviceId) (now : Time) : DState × List Act :=
  let s1 := { s with connected := false, connecting_ids := setRemove s.connecting_ids id }
  (schedule_reconnect s1 id now, [])

/-- `centralManager_didDisconnectPeripheral_error_`. -/
def didDisconnect (s : DState) (id : DeviceId) (now : Time) : DState × List Act :=
  let s1 := { s with connected := false, connected_ids := setRemove s.connected_ids id }
  match dlookup s1.blocked_ids id with
  | some u => if now < u then (s1, []) else (schedule_reconnect s1 id now, [])
  | none => (schedule_reconnect s1 id now, [])

/-- `peripheral_didDiscoverServices_`.  `err` models a non-`None` error
argument, `svcs` the UUID strings of `peripheral.services()`. -/
def didDiscoverServices (s : DState) (id : DeviceId) (err : Bool) (svcs : List String)
    (now : Time) : DState × List Act :=
  if err then (schedule_reconnect s id now, [])
  else
    let hits := svcs.filter (fun u => decide (u = HR_SERVICE))
    if hits.isEmpty then (block_device s id now, [Act.cancelConn id])
    else (s, hits.map (fun _ => Act.discoverCharsReq id))

/-- `peripheral_didDiscoverCharacteristicsForService_error_`.  `chs` holds the
UUID strings of `service.characteristics()`. -/
def didDiscoverChars (s : DState) (id : DeviceId) (err : Bool) (chs : List String)
    (now : Time) : DState × List Act :=
  if err then (schedule_reconnect s id now, [])
  else
    let hits := chs.filter (fun u => decide (u = HR_MEAS))
    if hits.isEmpty then (block_device s id now, [Act.cancelConn id])
    else (s, hits.map (fun _ => Act.setNotify id))

/-- `peripheral_didUpdateValueForCharacteristic_error_`.  `v` is the raw
characteristic value (`none` for a `None` value). -/
def didUpdateValue (s : DState) (id : DeviceId) (devName : Option String) (err : Bool)
    (v : Option (List Nat)) : DState × List Act :=
  if err then (s, [])
  else
    match v with
    | none => (s, [])
    | some data =>
        match BleCB.parse_hr_measurement data with
        | none => (s, [])
        | some hr =>
            let s1 := update_name s id devName none
            let label := (dlookup s1.name_by_id id).getD id
            (s1, if s1.outfile then [Act.writeHR hr label id] else [])

/-- The loop over `retrieveConnectedPeripheralsWithServices_` results inside
`centralManagerDidUpdateState_`: stop at capacity, skip non-matching
peripherals, connect the rest. -/
def retrievedLoop (s : DState) : List (DeviceId × Option String) → Time → DState × List Act
  | [], _ => (s, [])
  | (id, nm) :: rest, now =>
      if at_capacity s then (s, [])
      else
        let m := match_device s id nm none now
        if !m.2 then retrievedLoop m.1 rest now
        else
          let c := connect_peripheral m.1 id nm none
          let r := retrievedLoop c.1 rest now
          (r.1, c.2 ++ r.2)

/-- `centralManagerDidUpdateState_`.  `powered` is whether the central
reports `CBManagerStatePoweredOn`; `retrieved` lists the already-connected
peripherals (id and `peripheral.name()`) returned by the transport. -/
def didUpdateState (s : DState) (powered : Bool) (retrieved : List (DeviceId × Option String))
    (now : Time) : DState × List Act :=
  let s1 := { s with hasCentral := true, poweredOn := powered }
  if !powered then (s1, [])
  else
    let r := retrievedLoop s1 retrieved now
    let sc := startScan r.1 now
    (sc.1, r.2 ++ sc.2)

/-- The body of the `for device_id, ts in list(self.pending_reconnect.items())`
loop in `HRDelegate.tick`, iterating over the snapshot taken at tick entry. -/
def tickLoop (s : DState) : List (DeviceId × Time) → Time → DState × List Act
  | [], _ => (s, [])
  | (id, ts) :: rest, now =>
      if now < ts then tickLoop s rest now
      else if id ∈ s.connected_ids then
        tickLoop { s with pending_reconnect := dictErase s.pending_reconnect id } rest now
      else if id ∈ s.connecting_ids then
        tickLoop { s with pending_reconnect := dictSet s.pending_reconnect id (now + s.reconnect_interval) }
          rest now
      else if id ∈ s.peripherals then
        let s1 := { s with
          connecting_ids := setAdd s.connecting_ids id
          pending_reconnect := dictSet s.pending_reconnect id (now + s.reconnect_interval) }
        let r := tickLoop s1 rest now
        (r.1, Act.connectReq id :: r.2)
      else
        let st := stopScan s
        let sc := startScan st.1 now
        let s1 := { sc.1 with
          pending_reconnect := dictSet sc.1.pending_reconnect id (now + sc.1.reconnect_interval) }
        let r := tickLoop s1 rest now
        (r.1, st.2 ++ sc.2 ++ r.2)

/-- `HRDelegate.tick`. -/
def tick (s : DState) (now : Time) : DState × List Act :=
  if s.pending_reconnect.isEmpty then (s, [])
  else if !s.hasCentral || !s.poweredOn then
    ({ s with pending_reconnect :=
        s.pending_reconnect.map (fun p => (p.1, now + s.reconnect_interval)) }, [])
  else tickLoop s s.pending_reconnect now

/-! ## The transport environment

`Ev` is the alphabet of inbound events; `Sys` pairs the delegate state with a
ghost record of the in-flight GATT discovery request per device (at most one
per device, created by `connect`/`didConnect` and consumed by the
corresponding callback or dropped on disconnect), which lets `WfEv` state
which callback sequences a real transport can deliver. -/

/-- Ghost marker for the outstanding GATT request of a device. -/
inductive GOp where
  | svc
  | chr
  deriving DecidableEq, Repr

/-- Delegate state plus the ghost in-flight-request map. -/
structure Sys where
  d : DState
  inflight : List (DeviceId × GOp)
  deriving DecidableEq, Repr

/-- Inbound transport events and the scheduler tick. -/
inductive Ev where
  | updateState (powered : Bool) (retrieved : List (DeviceId × Option String))
  | discover (id : DeviceId) (devName advName : Option String)
  | connectOk (id : DeviceId)
  | connectFail (id : DeviceId)
  | disconnect (id : DeviceId)
  | services (id : DeviceId) (err : Bool) (svcs : List String)
  | chars (id : DeviceId) (err : Bool) (chs : List String)
  | value (id : DeviceId) (devName : Option String) (err : Bool) (v : Option (List Nat))
  | tickEv
  deriving DecidableEq, Repr

/-- Whether an event is the reconnect-scheduler tick. -/
def Ev.isTick : Ev → Bool
  | .tickEv => true
  | _ => false

/-- One transition of the system: the delegate handler runs on the state and
the ghost in-flight map is updated to match the requests issued. -/
def stepEv (y : Sys) (e : Ev) (now : Time) : Sys :=
  match e with
  | .updateState p r => { d := (didUpdateState y.d p r now).1, inflight := y.inflight }
  | .discover id dn an => { d := (didDiscover y.d id dn an now).1, inflight := y.inflight }
  | .connectOk id => { d := (didConnect y.d id).1, inflight := dictSet y.inflight id GOp.svc }
  | .connectFail id => { d := (didFail y.d id now).1, inflight := y.inflight }
  | .disconnect id => { d := (didDisconnect y.d id now).1, inflight := dictErase y.inflight id }
  | .services id err svcs =>
      { d := (didDiscoverServices y.d id err svcs now).1
        inflight :=
          if err then dictErase y.inflight id
          else if (svcs.filter (fun u => decide (u = HR_SERVICE))).isEmpty then
            dictErase y.inflight id
          else dictSet y.inflight id GOp.chr }
  | .chars id err chs => { d := (didDiscoverChars y.d id err chs now).1, inflight := dictErase y.inflight id }
  | .value id dn err v => { d := (didUpdateValue y.d id dn err v).1, inflight := y.inflight }
  | .tickEv => { d := (tick y.d now).1, inflight := y.inflight }

/-- Which events a real transport can deliver in a given system state:
connect outcomes only answer an in-flight connect request (the device is in
`connecting_ids`); service/characteristic callbacks only answer the single
in-flight discovery request of a still-connected device; a peripheral exposes
at most one Heart Rate service instance. -/
def WfEv (y : Sys) : Ev → Prop
  | .connectOk id => id ∈ y.d.connecting_ids
  | .connectFail id => id ∈ y.d.connecting_ids
  | .services id _ svcs =>
      dlookup y.inflight id = some GOp.svc ∧ id ∈ y.d.connected_ids
      ∧ (svcs.filter (fun u => decide (u = HR_SERVICE))).length ≤ 1
  | .chars id _ _ => dlookup y.inflight id = some GOp.chr ∧ id ∈ y.d.connected_ids
  | _ => True

/-- A freshly initialized system: no sessions, no pending retries, no blocks,
no in-flight requests (the configuration fields are arbitrary). -/
def InitOk (y : Sys) : Prop :=
  y.d.connected_ids = [] ∧ y.d.connecting_ids = [] ∧ y.d.pending_reconnect = []
  ∧ y.d.blocked_ids = [] ∧ y.inflight = []

/-- Reachability from a start state `y0` at clock `t0` through well-formed
events with a nondecreasing clock. -/
inductive ReachSys (y0 : Sys) (t0 : Time) : Sys → Time → Prop where
  | refl : ReachSys y0 t0 y0 t0
  | step {y : Sys} {t : Time} (e : Ev) {t' : Time} :
      ReachSys y0 t0 y t → t ≤ t' → WfEv y e → ReachSys y0 t0 (stepEv y e t') t'

/-! ## Frame lemmas for the handlers -/

theorem match_device_only_blocked (s : DState) (id : DeviceId) (dn an : Option String)
    (now : Time) :
    (match_device s id dn an now).1
      = { s with blocked_ids := (match_device s id dn an now).1.blocked_ids } := by
  unfold match_device
  cases h : dlookup s.blocked_ids id with
  | none => rfl
  | some u =>
      by_cases hu : now < u
      · simp [hu]
      · simp [hu]

theorem match_device_blocked_sub (s : DState) (id : DeviceId) (dn an : Option String)
    (now : Time) (k : DeviceId) (u : Time)
    (h : dlookup (match_device s id dn an now).1.blocked_ids k = some u) :
    dlookup s.blocked_ids k = some u := by
  unfold match_device at h
  cases hb : dlookup s.blocked_ids id with
  | none => rw [hb] at h; exact h
  | some u0 =>
      rw [hb] at h
      by_cases hu : now < u0
      · simp [hu] at h; exact h
      · simp [hu] at h
        by_cases hk : k = id
        · subst hk
          rw [dlookup_dictErase_self] at h
          exact absurd h (by simp)
        · rwa [dlookup_dictErase_ne _ _ _ hk] at h

theorem match_device_blocked_keeps_unexpired (s : DState) (id : DeviceId)
    (dn an : Option String) (now : Time) (k : DeviceId) (u : Time)
    (h : dlookup s.blocked_ids k = some u) (hu : now < u) :
    dlookup (match_device s id dn an now).1.blocked_ids k = some u := by
  unfold match_device
  cases hb : dlookup s.blocked_ids id with
  | none => exact h
  | some u0 =>
      by_cases hu0 : now < u0
      · simp [hu0]; exact h
      · simp [hu0]
        by_cases hk : k = id
        · subst hk
          rw [hb] at h
          cases h
          exact absurd hu hu0
        · rwa [dlookup_dictErase_ne _ _ _ hk]

theorem match_device_false_of_blocked (s : DState) (id : DeviceId) (dn an : Option String)
    (now : Time) (u : Time) (h : dlookup s.blocked_ids id = some u) (hu : now < u) :
    (match_device s id dn an now).2 = false := by
  unfold match_device
  rw [h]
  simp [hu]

theorem connect_peripheral_fst (s : DState) (id : DeviceId) (dn an : Option String) :
    (connect_peripheral s id dn an).1
      = if id ∈ s.connected_ids ∨ id ∈ s.connecting_ids then s
        else { s with
          peripherals := setAdd s.peripherals id
          name_by_id := update_name_map s.name_by_id id dn an
          connecting_ids := setAdd s.connecting_ids id } := by
  unfold connect_peripheral
  by_cases h : id ∈ s.connected_ids ∨ id ∈ s.connecting_ids
  · simp [h]
  · simp [h, update_name]

theorem didDiscover_shape (s : DState) (id : DeviceId) (dn an : Option String) (now : Time) :
    ∃ b : List (DeviceId × Time),
      (∀ k u, dlookup b k = some u → dlookup s.blocked_ids k = some u)
      ∧ (∀ k u, dlookup s.blocked_ids k = some u → now < u → dlookup b k = some u)
      ∧ (let sB : DState :=
          { s with
            peripherals := setAdd s.peripherals id
            name_by_id := update_name_map s.name_by_id id dn an
            blocked_ids := b }
         didDiscover s id dn an now = (sB, [])
         ∨ (didDiscover s id dn an now = connect_peripheral sB id dn an
            ∧ at_capacity sB = false
            ∧ (∀ u, dlookup s.blocked_ids id = some u → ¬ now < u)
            ∧ (is_preferred s dn an = true ∨ should_defer s now = false))) := by
  unfold didDiscover
  set s1 : DState := { s with peripherals := setAdd s.peripherals id } with hs1
  set s2 : DState := update_name s1 id dn an with hs2
  have h2 : s2 = { s with
      peripherals := setAdd s.peripherals id
      name_by_id := update_name_map s.name_by_id id dn an } := by
    rw [hs2, hs1]; rfl
  refine ⟨(match_device s2 id dn an now).1.blocked_ids, ?_, ?_, ?_⟩
  · intro k u h
    have := match_device_blocked_sub s2 id dn an now k u h
    rw [h2] at this
    exact this
  · intro k u h hu
    have := match_device_blocked_keeps_unexpired s2 id dn an now k u (by rw [h2]; exact h) hu
    exact this
  · have hm : (match_device s2 id dn an now).1
        = { s with
            peripherals := setAdd s.peripherals id
            name_by_id := update_name_map s.name_by_id id dn an
            blocked_ids := (match_device s2 id dn an now).1.blocked_ids } := by
      rw [match_device_only_blocked s2 id dn an now, h2]
    by_cases hok : (match_device s2 id dn an now).2
    · by_cases hdefer :
        (!(is_preferred (match_device s2 id dn an now).1 dn an)
          && should_defer (match_device s2 id dn an now).1 now)
      · simp only [hok, hdefer, Bool.not_true, if_false, if_true]
        exact Or.inl (by rw [← hm]; simp [hok, hdefer])
      · by_cases hcap : at_capacity (match_device s2 id dn an now).1
        · simp only []
          refine Or.inl ?_
          rw [← hm]
          simp [hok, hdefer, hcap]
        · refine Or.inr ⟨?_, ?_, ?_, ?_⟩
          · rw [← hm]
            simp [hok, hdefer, hcap]
          · rw [← hm]
            simp [hcap]
          · intro u hu hnu
            have := match_device_false_of_blocked s2 id dn an now u (by rw [h2]; exact hu) hnu
            rw [this] at hok
            exact Bool.false_ne_true hok
          · by_cases hpref : is_preferred (match_device s2 id dn an now).1 dn an = true
            · left
              rw [hm] at hpref
              exact hpref
            · right
              have hp : is_preferred (match_device s2 id dn an now).1 dn an = false :=
                Bool.eq_false_iff.mpr hpref
              have hsd : should_defer (match_device s2 id dn an now).1 now = false := by
                cases hsd : should_defer (match_device s2 id dn an now).1 now
                · rfl
                · exfalso
                  apply hdefer
                  rw [hp, hsd]
                  rfl
              rw [hm] at hsd
              exact hsd
    · simp only [Bool.not_eq_true] at hok
      refine Or.inl ?_
      rw [← hm]
      simp [hok]

/-! ## Claims C8, C9, C10 -/

/-- C8: a notification callback whose payload fails to decode (error set,
missing value, or undecodable bytes) writes no output record and leaves the
whole delegate state — in particular the connected set, connecting set,
pending-reconnect map and block map — unchanged. -/
theorem claim_C8_decode_failure_frame (s : DState) (id : DeviceId) (dn : Option String)
    (err : Bool) (v : Option (List Nat)) (data : List Nat) :
    didUpdateValue s id dn true v = (s, [])
    ∧ didUpdateValue s id dn err none = (s, [])
    ∧ (BleCB.parse_hr_measurement data = none →
        didUpdateValue s id dn err (some data) = (s, [])) := by
  refine ⟨?_, ?_, ?_⟩
  · simp [didUpdateValue]
  · cases err <;> simp [didUpdateValue]
  · intro h
    cases err <;> simp [didUpdateValue, h]

/-- Witness for C8 at a concrete undersized payload. -/
theorem claim_C8_decode_failure_frame_witness :
    didUpdateValue hrDelegateInit "A" (some "W") false (some [1, 7]) = (hrDelegateInit, []) :=
  (claim_C8_decode_failure_frame hrDelegateInit "A" (some "W") false (some [1, 7]) [1, 7]).2.2
    (by decide)

/-- C9: starting a scan while one is active is a no-op (state, including the
scan-start timestamp, unchanged; no request issued), and stopping while no
scan is active is likewise a no-op. -/
theorem claim_C9_scan_idempotence (s : DState) (now : Time) :
    (s.scanning = true → startScan s now = (s, []))
    ∧ (s.scanning = false → stopScan s = (s, [])) := by
  refine ⟨?_, ?_⟩
  · intro h
    simp [startScan, h]
  · intro h
    simp [stopScan, h]

/-- Witness for C9 on concrete scanning and non-scanning states. -/
theorem claim_C9_scan_idempotence_witness :
    startScan { hrDelegateInit with scanning := true, hasCentral := true } 3
        = ({ hrDelegateInit with scanning := true, hasCentral := true }, [])
    ∧ stopScan hrDelegateInit = (hrDelegateInit, []) :=
  ⟨(claim_C9_scan_idempotence { hrDelegateInit with scanning := true, hasCentral := true } 3).1 rfl,
   (claim_C9_scan_idempotence hrDelegateInit 3).2 rfl⟩

/-- C10: scheduling a reconnect for a device that already has a pending
entry leaves the state untouched — the earlier `nextAttemptAt` survives —
so a repeated failure callback never postpones the scheduled attempt. -/
theorem claim_C10_schedule_idempotent (s : DState) (id : DeviceId) (now : Time)
    (h : (dlookup s.pending_reconnect id).isSome) :
    schedule_reconnect s id now = s
    ∧ (didFail s id now).1.pending_reconnect = s.pending_reconnect := by
  constructor
  · simp [schedule_reconnect, h]
  · simp [didFail, schedule_reconnect, h]

/-- Witness for C10 at a concrete pending entry. -/
theorem claim_C10_schedule_idempotent_witness :
    schedule_reconnect { hrDelegateInit with pending_reconnect := [("A", 9)] } "A" 100
      = { hrDelegateInit with pending_reconnect := [("A", 9)] } :=
  (claim_C10_schedule_idempotent { hrDelegateInit with pending_reconnect := [("A", 9)] }
    "A" 100 (by decide)).1

/-! ## Claim C7: name-cache policy -/

/-- C7 (amended): within one callback the advertised name wins over the
device name and overwrites any cached entry; but a callback carrying no
advertised name and a truthy device name (for example the notification
callback, which always passes no advertisement data) also overwrites the
cached entry, even one that came from an advertised name; a callback with
neither leaves the cache unchanged. -/
theorem claim_C7_amended_name_policy (s : DState) (id : DeviceId) (dn an : Option String) :
    (pyTruthy an = true →
      dlookup (update_name s id dn an).name_by_id id = some (an.getD ""))
    ∧ (pyTruthy an = false → pyTruthy dn = true →
      dlookup (update_name s id dn an).name_by_id id = some (dn.getD ""))
    ∧ (pyTruthy an = false → pyTruthy dn = false → update_name s id dn an = s) := by
  refine ⟨?_, ?_, ?_⟩
  · intro h
    simp [update_name, update_name_map, h, dlookup_dictSet_self]
  · intro h1 h2
    simp [update_name, update_name_map, h1, h2, dlookup_dictSet_self]
  · intro h1 h2
    simp [update_name, update_name_map, h1, h2]

/-- Witness for C7's amended policy at concrete names. -/
theorem claim_C7_amended_name_policy_witness :
    dlookup (update_name hrDelegateInit "A" (some "Dev") (some "Adv")).name_by_id "A"
        = some "Adv"
    ∧ dlookup (update_name hrDelegateInit "A" (some "Dev") none).name_by_id "A"
        = some "Dev" :=
  ⟨(claim_C7_amended_name_policy hrDelegateInit "A" (some "Dev") (some "Adv")).1 rfl,
   (claim_C7_amended_name_policy hrDelegateInit "A" (some "Dev") none).2.1 rfl rfl⟩

/-- Concrete run refuting C7 as stated: a discovery caches the advertised
name "AdvName", then a notification callback (which passes no advertisement
data) arrives while the peripheral reports the device name "DevName", and
the cached advertised name is overwritten. -/
def c7state1 : DState := (didUpdateState hrDelegateInit true [] 0).1

/-- State after discovering device "A" advertising "AdvName". -/
def c7state2 : DState := (didDiscover c7state1 "A" (some "Dev") (some "AdvName") 0).1

/-- State after a valid notification from "A" whose peripheral name is
"DevName". -/
def c7state3 : DState := (didUpdateValue c7state2 "A" (some "DevName") false (some [0, 72])).1

/-- C7 is false on the code: the advertised name "AdvName" is cached by the
discovery, and the later device name "DevName" from the notification
callback overwrites it. -/
theorem claim_C7_counterexample :
    dlookup c7state2.name_by_id "A" = some "AdvName"
    ∧ dlookup c7state3.name_by_id "A" = some "DevName" := by
  constructor
  · rfl
  · rfl

/-! ## Claim C6: preferred-source deferral -/

/-- C6: `shouldDefer` holds exactly when the preferred-name set is non-empty,
a scan is active (equivalently, the scan-start timestamp is set, the two being
coupled by the scan controller) and the elapsed scan time is below the grace
period; with an empty preferred set it is always false; and while it holds, a
discovery of a non-preferred device caches the handle and name but changes no
connection state and issues no request. -/
theorem claim_C6_defer (s : DState) (now : Time) :
    (should_defer s now = true ↔
      s.preferred_names ≠ []
        ∧ ∃ t, s.last_scan_start = some t ∧ now - t < s.preferred_grace)
    ∧ (s.scanning = s.last_scan_start.isSome →
        (should_defer s now = true ↔
          s.preferred_names ≠ [] ∧ s.scanning = true
            ∧ ∃ t, s.last_scan_start = some t ∧ now - t < s.preferred_grace))
    ∧ (s.preferred_names = [] → should_defer s now = false)
    ∧ (∀ id dn an, should_defer s now = true → is_preferred s dn an = false →
        (didDiscover s id dn an now).2 = []
        ∧ (didDiscover s id dn an now).1.connecting_ids = s.connecting_ids
        ∧ (didDiscover s id dn an now).1.connected_ids = s.connected_ids
        ∧ (didDiscover s id dn an now).1.pending_reconnect = s.pending_reconnect
        ∧ (didDiscover s id dn an now).1.peripherals = setAdd s.peripherals id
        ∧ (didDiscover s id dn an now).1.name_by_id
            = update_name_map s.name_by_id id dn an) := by
  have hiff : should_defer s now = true ↔
      s.preferred_names ≠ []
        ∧ ∃ t, s.last_scan_start = some t ∧ now - t < s.preferred_grace := by
    cases hpn : s.preferred_names with
    | nil => simp [should_defer, hpn]
    | cons a l =>
        cases hls : s.last_scan_start with
        | none => simp [should_defer, hpn, hls]
        | some t => simp [should_defer, hpn, hls]
  refine ⟨hiff, ?_, ?_, ?_⟩
  · intro hc
    rw [hiff]
    constructor
    · rintro ⟨h1, t, ht, hlt⟩
      refine ⟨h1, ?_, t, ht, hlt⟩
      rw [hc, ht]
      rfl
    · rintro ⟨h1, _, t, ht, hlt⟩
      exact ⟨h1, t, ht, hlt⟩
  · intro h
    simp [should_defer, h]
  · intro id dn an hdef hpref
    obtain ⟨b, hsub, hkeep, hshape⟩ := didDiscover_shape s id dn an now
    rcases hshape with heq | ⟨heq, hcap, hbl, hd⟩
    · rw [heq]
      exact ⟨rfl, rfl, rfl, rfl, rfl, rfl⟩
    · rcases hd with hd | hd
      · rw [hpref] at hd
        exact absurd hd Bool.false_ne_true
      · rw [hdef] at hd
        exact absurd hd (by decide)

/-- Concrete deferral state: preferred set `["w"]`, scan started at time 0. -/
def c6s : DState :=
  { hrDelegateInit with
    preferred_names := ["w"], last_scan_start := some 0,
    scanning := true, hasCentral := true }

/-- Witness for C6: in `c6s` at time 2 deferral is in force, a discovery of
the non-preferred device "Generic Sensor" issues nothing, and with the empty
preferred set deferral is off. -/
theorem claim_C6_defer_witness :
    should_defer c6s 2 = true
    ∧ (didDiscover c6s "B" (some "Generic Sensor") none 2).2 = []
    ∧ should_defer hrDelegateInit 2 = false := by
  have h1 : should_defer c6s 2 = true :=
    (claim_C6_defer c6s 2).1.mpr (by exact ⟨by decide, 0, rfl, by decide⟩)
  refine ⟨h1, ?_, ?_⟩
  · exact ((claim_C6_defer c6s 2).2.2.2 "B" (some "Generic Sensor") none h1 (by decide)).1
  · exact (claim_C6_defer hrDelegateInit 2).2.2.1 rfl

/-! ## A concrete run violating the capacity invariant

With `max_devices = 1`: device A is discovered, connects, then drops (a
reconnect is scheduled); device B is discovered and starts connecting,
filling the single slot; the next scheduler tick then issues a connect for A
anyway, since `tick` never consults `_at_capacity`. -/

/-- Delegate configured with `--max-devices 1` and no filters. -/
def capCfg : DState := set_preferred (set_filters hrDelegateInit [] [] (some 1) false) [] 6

/-- Initial system for the capacity run. -/
def capY0 : Sys := { d := capCfg, inflight := [] }

/-- After the powered-on state callback. -/
def capY1 : Sys := stepEv capY0 (Ev.updateState true []) 0

/-- After discovering device A. -/
def capY2 : Sys := stepEv capY1 (Ev.discover "A" none none) 0

/-- After A's connect succeeds. -/
def capY3 : Sys := stepEv capY2 (Ev.connectOk "A") 0

/-- After A disconnects (reconnect due at time 5). -/
def capY4 : Sys := stepEv capY3 (Ev.disconnect "A") 0

/-- After discovering device B at time 5 (B takes the only slot). -/
def capY5 : Sys := stepEv capY4 (Ev.discover "B" none none) 5

/-- After the scheduler tick at time 6. -/
def capY6 : Sys := stepEv capY5 Ev.tickEv 6

/-- The capacity run up to `capY5` is a well-formed reachable execution. -/
theorem capReach5 : ReachSys capY0 0 capY5 5 :=
  ReachSys.step (Ev.discover "B" none none)
    (ReachSys.step (Ev.disconnect "A")
      (ReachSys.step (Ev.connectOk "A")
        (ReachSys.step (Ev.discover "A" none none)
          (ReachSys.step (Ev.updateState true []) ReachSys.refl (by decide) trivial)
          (by decide) trivial)
        (by decide) (show "A" ∈ capY2.d.connecting_ids by decide))
      (by decide) trivial)
    (by decide) trivial

/-- C1 is false on the code: the well-formed run above reaches, after a
scheduler tick, a state with `maxDevices = 1` yet two devices in the
connected/connecting sets, because `tick` issues connect attempts without a
capacity check. -/
theorem claim_C1_counterexample :
    InitOk capY0
    ∧ ReachSys capY0 0 capY6 6
    ∧ capY6.d.max_devices = some 1
    ∧ capY6.d.connected_ids.length + capY6.d.connecting_ids.length = 2 := by
  refine ⟨⟨rfl, rfl, rfl, rfl, rfl⟩, ?_, rfl, by decide⟩
  exact ReachSys.step Ev.tickEv capReach5 (by decide) trivial

/-- C2 is false on the code: in the reachable state `capY5` the delegate is
at capacity, yet the scheduler tick still issues a new connect request. -/
theorem claim_C2_counterexample :
    InitOk capY0
    ∧ ReachSys capY0 0 capY5 5
    ∧ at_capacity capY5.d = true
    ∧ Act.connectReq "A" ∈ (tick capY5.d 6).2 := by
  exact ⟨⟨rfl, rfl, rfl, rfl, rfl⟩, capReach5, by decide, by decide⟩

/-! ## Frame lemmas for the remaining handlers -/

theorem startScan_frame (s : DState) (now : Time) :
    (startScan s now).1.connected_ids = s.connected_ids
    ∧ (startScan s now).1.connecting_ids = s.connecting_ids
    ∧ (startScan s now).1.pending_reconnect = s.pending_reconnect
    ∧ (startScan s now).1.blocked_ids = s.blocked_ids
    ∧ (startScan s now).1.max_devices = s.max_devices
    ∧ ∀ a ∈ (startScan s now).2, a = Act.scanStart := by
  unfold startScan
  split
  · exact ⟨rfl, rfl, rfl, rfl, rfl, by intro a ha; simp at ha⟩
  · refine ⟨rfl, rfl, rfl, rfl, rfl, ?_⟩
    intro a ha
    simpa using ha

theorem stopScan_frame (s : DState) :
    (stopScan s).1.connected_ids = s.connected_ids
    ∧ (stopScan s).1.connecting_ids = s.connecting_ids
    ∧ (stopScan s).1.pending_reconnect = s.pending_reconnect
    ∧ (stopScan s).1.blocked_ids = s.blocked_ids
    ∧ (stopScan s).1.max_devices = s.max_devices
    ∧ ∀ a ∈ (stopScan s).2, a = Act.scanStop := by
  unfold stopScan
  split
  · exact ⟨rfl, rfl, rfl, rfl, rfl, by intro a ha; simp at ha⟩
  · refine ⟨rfl, rfl, rfl, rfl, rfl, ?_⟩
    intro a ha
    simpa using ha

theorem schedule_reconnect_frame (s : DState) (id : DeviceId) (now : Time) :
    (schedule_reconnect s id now).connected_ids = s.connected_ids
    ∧ (schedule_reconnect s id now).connecting_ids = s.connecting_ids
    ∧ (schedule_reconnect s id now).blocked_ids = s.blocked_ids
    ∧ (schedule_reconnect s id now).max_devices = s.max_devices := by
  unfold schedule_reconnect
  split <;> exact ⟨rfl, rfl, rfl, rfl⟩

theorem dlookup_schedule_ne (s : DState) (id k : DeviceId) (now : Time) (h : k ≠ id) :
    dlookup (schedule_reconnect s id now).pending_reconnect k
      = dlookup s.pending_reconnect k := by
  unfold schedule_reconnect
  split
  · rfl
  · exact dlookup_dictSet_ne _ _ _ _ h

theorem didConnect_frame (s : DState) (id : DeviceId) :
    (didConnect s id).1.connected_ids = setAdd s.connected_ids id
    ∧ (didConnect s id).1.connecting_ids = setRemove s.connecting_ids id
    ∧ (didConnect s id).1.pending_reconnect = dictErase s.pending_reconnect id
    ∧ (didConnect s id).1.blocked_ids = s.blocked_ids
    ∧ (didConnect s id).1.max_devices = s.max_devices :=
  ⟨rfl, rfl, rfl, rfl, rfl⟩

theorem didFail_frame (s : DState) (id : DeviceId) (now : Time) :
    (didFail s id now).1.connected_ids = s.connected_ids
    ∧ (didFail s id now).1.connecting_ids = setRemove s.connecting_ids id
    ∧ (didFail s id now).1.blocked_ids = s.blocked_ids
    ∧ (didFail s id now).1.max_devices = s.max_devices := by
  dsimp only [didFail, schedule_reconnect]
  split <;> exact ⟨rfl, rfl, rfl, rfl⟩

theorem didDisconnect_frame (s : DState) (id : DeviceId) (now : Time) :
    (didDisconnect s id now).1.connected_ids = setRemove s.connected_ids id
    ∧ (didDisconnect s id now).1.connecting_ids = s.connecting_ids
    ∧ (didDisconnect s id now).1.blocked_ids = s.blocked_ids
    ∧ (didDisconnect s id now).1.max_devices = s.max_devices := by
  dsimp only [didDisconnect, schedule_reconnect]
  cases hb : dlookup s.blocked_ids id with
  | none =>
      by_cases hp : (dlookup s.pending_reconnect id).isSome = true
      · rw [if_pos hp]
        exact ⟨rfl, rfl, rfl, rfl⟩
      · rw [if_neg hp]
        exact ⟨rfl, rfl, rfl, rfl⟩
  | some u =>
      dsimp only
      by_cases hu : now < u
      · rw [if_pos hu]
        exact ⟨rfl, rfl, rfl, rfl⟩
      · rw [if_neg hu]
        by_cases hp : (dlookup s.pending_reconnect id).isSome = true
        · rw [if_pos hp]
          exact ⟨rfl, rfl, rfl, rfl⟩
        · rw [if_neg hp]
          exact ⟨rfl, rfl, rfl, rfl⟩

theorem didDiscoverServices_frame (s : DState) (id : DeviceId) (err : Bool)
    (svcs : List String) (now : Time) :
    (didDiscoverServices s id err svcs now).1.connected_ids = s.connected_ids
    ∧ (didDiscoverServices s id err svcs now).1.connecting_ids = s.connecting_ids
    ∧ (didDiscoverServices s id err svcs now).1.max_devices = s.max_devices := by
  dsimp only [didDiscoverServices, schedule_reconnect, block_device]
  by_cases he : err = true
  · rw [if_pos he]
    by_cases hp : (dlookup s.pending_reconnect id).isSome = true
    · rw [if_pos hp]; exact ⟨rfl, rfl, rfl⟩
    · rw [if_neg hp]; exact ⟨rfl, rfl, rfl⟩
  · rw [if_neg he]
    by_cases hh : (List.filter (fun u => decide (u = HR_SERVICE)) svcs).isEmpty = true
    · rw [if_pos hh]; exact ⟨rfl, rfl, rfl⟩
    · rw [if_neg hh]; exact ⟨rfl, rfl, rfl⟩

theorem didDiscoverChars_frame (s : DState) (id : DeviceId) (err : Bool)
    (chs : List String) (now : Time) :
    (didDiscoverChars s id err chs now).1.connected_ids = s.connected_ids
    ∧ (didDiscoverChars s id err chs now).1.connecting_ids = s.connecting_ids
    ∧ (didDiscoverChars s id err chs now).1.max_devices = s.max_devices := by
  dsimp only [didDiscoverChars, schedule_reconnect, block_device]
  by_cases he : err = true
  · rw [if_pos he]
    by_cases hp : (dlookup s.pending_reconnect id).isSome = true
    · rw [if_pos hp]; exact ⟨rfl, rfl, rfl⟩
    · rw [if_neg hp]; exact ⟨rfl, rfl, rfl⟩
  · rw [if_neg he]
    by_cases hh : (List.filter (fun u => decide (u = HR_MEAS)) chs).isEmpty = true
    · rw [if_pos hh]; exact ⟨rfl, rfl, rfl⟩
    · rw [if_neg hh]; exact ⟨rfl, rfl, rfl⟩

theorem didUpdateValue_frame (s : DState) (id : DeviceId) (dn : Option String)
    (err : Bool) (v : Option (List Nat)) :
    (didUpdateValue s id dn err v).1.connected_ids = s.connected_ids
    ∧ (didUpdateValue s id dn err v).1.connecting_ids = s.connecting_ids
    ∧ (didUpdateValue s id dn err v).1.pending_reconnect = s.pending_reconnect
    ∧ (didUpdateValue s id dn err v).1.blocked_ids = s.blocked_ids
    ∧ (didUpdateValue s id dn err v).1.max_devices = s.max_devices := by
  dsimp only [didUpdateValue, update_name]
  by_cases he : err = true
  · rw [if_pos he]
    exact ⟨rfl, rfl, rfl, rfl, rfl⟩
  · rw [if_neg he]
    cases v with
    | none => exact ⟨rfl, rfl, rfl, rfl, rfl⟩
    | some data =>
        dsimp only
        cases BleCB.parse_hr_measurement data with
        | none => exact ⟨rfl, rfl, rfl, rfl, rfl⟩
        | some hr => exact ⟨rfl, rfl, rfl, rfl, rfl⟩

/-! ## The capacity invariant -/

/-- The C1 invariant: when `max_devices` is set, the connected and connecting
sets together never exceed it. -/
def capOk (s : DState) : Prop :=
  ∀ m, s.max_devices = some m → s.connected_ids.length + s.connecting_ids.length ≤ m

theorem capOk_of_fields {s s' : DState} (h1 : s'.connected_ids = s.connected_ids)
    (h2 : s'.connecting_ids = s.connecting_ids) (h3 : s'.max_devices = s.max_devices)
    (h : capOk s) : capOk s' := by
  intro m hm
  rw [h1, h2]
  exact h m (h3 ▸ hm)

theorem at_capacity_false_lt {s : DState} {m : Nat} (h : at_capacity s = false)
    (hm : s.max_devices = some m) :
    s.connected_ids.length + s.connecting_ids.length < m := by
  unfold at_capacity at h
  rw [hm] at h
  simp only [decide_eq_false_iff_not, not_le] at h
  exact h

theorem capOk_connect {s : DState} (id : DeviceId) (dn an : Option String)
    (hcap : at_capacity s = false) (h : capOk s) :
    capOk (connect_peripheral s id dn an).1 := by
  rw [connect_peripheral_fst]
  split
  · exact h
  · intro m hm
    have hlt := at_capacity_false_lt hcap hm
    have hle := length_setAdd_le s.connecting_ids id
    show s.connected_ids.length + (setAdd s.connecting_ids id).length ≤ m
    omega

theorem retrievedLoop_at_capacity (s : DState) (l : List (DeviceId × Option String))
    (now : Time) (h : at_capacity s = true) : retrievedLoop s l now = (s, []) := by
  cases l with
  | nil => rfl
  | cons p rest =>
      rcases p with ⟨id, nm⟩
      dsimp only [retrievedLoop]
      rw [if_pos h]

theorem retrievedLoop_capOk :
    ∀ (l : List (DeviceId × Option String)) (s : DState) (now : Time),
      capOk s → capOk (retrievedLoop s l now).1
  | [], _, _, h => h
  | (id, nm) :: rest, s, now, h => by
      dsimp only [retrievedLoop]
      by_cases hat : at_capacity s = true
      · rw [if_pos hat]
        exact h
      · rw [if_neg hat]
        have hat' : at_capacity s = false := Bool.eq_false_iff.mpr hat
        by_cases hm2 : (match_device s id nm none now).2 = true
        · rw [if_neg (by simp [hm2])]
          apply retrievedLoop_capOk rest
          apply capOk_connect id nm none
          · rw [match_device_only_blocked]
            exact hat'
          · rw [match_device_only_blocked]
            exact fun m hm => h m hm
        · rw [if_pos (by simp [Bool.eq_false_iff.mpr hm2])]
          apply retrievedLoop_capOk rest
          rw [match_device_only_blocked]
          exact fun m hm => h m hm

/-- C2 (amended): the capacity check is consulted on the discovery path and
on the retrieve-already-connected path at stack initialization — at capacity
those paths issue no connect request, abort nothing, and leave the
connected/connecting sets unchanged — but the reconnect tick performs no
capacity check at all (see the counterexample theorem for C2). -/
theorem claim_C2_amended_capacity_paths (s : DState) (hcap : at_capacity s = true) :
    (∀ id dn an now,
        (didDiscover s id dn an now).2 = []
        ∧ (didDiscover s id dn an now).1.connecting_ids = s.connecting_ids
        ∧ (didDiscover s id dn an now).1.connected_ids = s.connected_ids)
    ∧ (∀ retrieved now,
        (∀ i : DeviceId, Act.connectReq i ∉ (didUpdateState s true retrieved now).2)
        ∧ (∀ i : DeviceId, Act.cancelConn i ∉ (didUpdateState s true retrieved now).2)
        ∧ (didUpdateState s true retrieved now).1.connecting_ids = s.connecting_ids
        ∧ (didUpdateState s true retrieved now).1.connected_ids = s.connected_ids) := by
  constructor
  · intro id dn an now
    obtain ⟨b, hsub, hkeep, hshape⟩ := didDiscover_shape s id dn an now
    rcases hshape with heq | ⟨heq, hcapB, hbl, hd⟩
    · rw [heq]
      exact ⟨rfl, rfl, rfl⟩
    · exfalso
      have hf : at_capacity s = false := hcapB
      rw [hf] at hcap
      exact Bool.false_ne_true hcap
  · intro retrieved now
    have h1 : retrievedLoop { s with hasCentral := true, poweredOn := true } retrieved now
        = ({ s with hasCentral := true, poweredOn := true }, []) :=
      retrievedLoop_at_capacity _ _ _ hcap
    have h2 : didUpdateState s true retrieved now
        = ((startScan { s with hasCentral := true, poweredOn := true } now).1,
           [] ++ (startScan { s with hasCentral := true, poweredOn := true } now).2) := by
      dsimp only [didUpdateState]
      rw [if_neg (by decide : ¬ ((!true) = true))]
      rw [h1]
    rw [h2]
    obtain ⟨hc1, hc2, _, _, _, hacts⟩ :=
      startScan_frame { s with hasCentral := true, poweredOn := true } now
    refine ⟨?_, ?_, hc2, hc1⟩
    · intro i hi
      simp only [List.nil_append] at hi
      exact Act.noConfusion (hacts _ hi)
    · intro i hi
      simp only [List.nil_append] at hi
      exact Act.noConfusion (hacts _ hi)

/-- Witness for the amended C2 in the reachable at-capacity state `capY5`. -/
theorem claim_C2_amended_capacity_paths_witness :
    (didDiscover capY5.d "C" none none 5).2 = []
    ∧ ∀ i : DeviceId,
        Act.connectReq i ∉ (didUpdateState capY5.d true [("C", none)] 5).2 :=
  ⟨((claim_C2_amended_capacity_paths capY5.d (by decide)).1 "C" none none 5).1,
   ((claim_C2_amended_capacity_paths capY5.d (by decide)).2 [("C", none)] 5).1⟩

/-- C1 (amended): the capacity bound `|connected| + |connecting| ≤ maxDevices`
is preserved by every transport callback (discovery, state update, connect
success/failure, disconnect, service/characteristic discovery, notification),
but not by the reconnect tick, which issues connect attempts without a
capacity check (see the counterexample theorem for C1). -/
theorem claim_C1_amended_capacity_preserved (y : Sys) (e : Ev) (t' : Time)
    (hwf : WfEv y e) (hnt : e.isTick = false) (hcap : capOk y.d) :
    capOk (stepEv y e t').d := by
  cases e with
  | updateState p r =>
      cases p with
      | false => exact fun m hm => hcap m hm
      | true =>
          dsimp only [stepEv, didUpdateState]
          obtain ⟨h1, h2, _, _, h5, _⟩ :=
            startScan_frame (retrievedLoop { y.d with hasCentral := true, poweredOn := true } r t').1 t'
          apply capOk_of_fields h1 h2 h5
          apply retrievedLoop_capOk
          exact fun m hm => hcap m hm
  | discover id dn an =>
      dsimp only [stepEv]
      obtain ⟨b, _, _, hshape⟩ := didDiscover_shape y.d id dn an t'
      rcases hshape with heq | ⟨heq, hcapB, _, _⟩
      · rw [heq]
        exact fun m hm => hcap m hm
      · rw [heq]
        exact capOk_connect id dn an hcapB (fun m hm => hcap m hm)
  | connectOk id =>
      have hmem : id ∈ y.d.connecting_ids := hwf
      dsimp only [stepEv]
      obtain ⟨h1, h2, _, _, h5⟩ := didConnect_frame y.d id
      intro m hm
      rw [h1, h2]
      have hm' : y.d.max_devices = some m := by rw [← h5]; exact hm
      have hc := hcap m hm'
      have ha := length_setAdd_le y.d.connected_ids id
      have hr := length_setRemove_of_mem hmem
      omega
  | connectFail id =>
      dsimp only [stepEv]
      obtain ⟨h1, h2, _, h5⟩ := didFail_frame y.d id t'
      intro m hm
      rw [h1, h2]
      have hm' : y.d.max_devices = some m := by rw [← h5]; exact hm
      have hc := hcap m hm'
      have hr := length_setRemove_le y.d.connecting_ids id
      omega
  | disconnect id =>
      dsimp only [stepEv]
      obtain ⟨h1, h2, _, h5⟩ := didDisconnect_frame y.d id t'
      intro m hm
      rw [h1, h2]
      have hm' : y.d.max_devices = some m := by rw [← h5]; exact hm
      have hc := hcap m hm'
      have hr := length_setRemove_le y.d.connected_ids id
      omega
  | services id err svcs =>
      dsimp only [stepEv]
      obtain ⟨h1, h2, h5⟩ := didDiscoverServices_frame y.d id err svcs t'
      exact capOk_of_fields h1 h2 h5 hcap
  | chars id err chs =>
      dsimp only [stepEv]
      obtain ⟨h1, h2, h5⟩ := didDiscoverChars_frame y.d id err chs t'
      exact capOk_of_fields h1 h2 h5 hcap
  | value id dn err v =>
      dsimp only [stepEv]
      obtain ⟨h1, h2, _, _, h5⟩ := didUpdateValue_frame y.d id dn err v
      exact capOk_of_fields h1 h2 h5 hcap
  | tickEv => simp [Ev.isTick] at hnt

/-- Witness for the amended C1: a discovery arriving in the at-capacity
reachable state `capY5` keeps the bound `≤ 1`. -/
theorem claim_C1_amended_capacity_preserved_witness :
    (stepEv capY5 (Ev.discover "C" none none) 5).d.connected_ids.length
      + (stepEv capY5 (Ev.discover "C" none none) 5).d.connecting_ids.length ≤ 1 := by
  have hc : capOk capY5.d := by
    intro m hm
    have hm' : (some 1 : Option Nat) = some m := hm
    cases hm'
    decide
  have h := claim_C1_amended_capacity_preserved capY5 (Ev.discover "C" none none) 5
    trivial rfl hc
  exact h 1 rfl

/-! ## Helper lemmas for the tick characterization (C5) -/

theorem dlookup_cons_self {α : Type} (rest : List (DeviceId × α)) (k : DeviceId) (v : α) :
    dlookup ((k, v) :: rest) k = some v := by
  simp [dlookup]

theorem dlookup_cons_ne {α : Type} (rest : List (DeviceId × α)) (k : DeviceId) (v : α)
    (id : DeviceId) (h : ¬ k = id) : dlookup ((k, v) :: rest) id = dlookup rest id := by
  simp [dlookup, h]

theorem stopScan_only_scan (s : DState) :
    (stopScan s).1 = { s with scanning := (stopScan s).1.scanning,
                              last_scan_start := (stopScan s).1.last_scan_start } := by
  unfold stopScan
  split <;> rfl

theorem scanPair_state (s : DState) (now : Time) :
    (startScan (stopScan s).1 now).1
      = { s with scanning := (startScan (stopScan s).1 now).1.scanning,
                 last_scan_start := (startScan (stopScan s).1 now).1.last_scan_start } := by
  unfold startScan stopScan
  repeat' split
  all_goals rfl

theorem scanPair_actions (s : DState) (now : Time) :
    ∀ a ∈ (stopScan s).2 ++ (startScan (stopScan s).1 now).2,
      a = Act.scanStop ∨ a = Act.scanStart := by
  intro a ha
  rcases List.mem_append.mp ha with h | h
  · exact Or.inl ((stopScan_frame s).2.2.2.2.2 a h)
  · exact Or.inr ((startScan_frame _ now).2.2.2.2.2 a h)

theorem stopScan_hasCentral (s : DState) : (stopScan s).1.hasCentral = s.hasCentral := by
  rw [stopScan_only_scan]

theorem stopScan_scanning_false (s : DState) (hc : s.hasCentral = true) :
    (stopScan s).1.scanning = false := by
  unfold stopScan
  by_cases hs : s.scanning = true
  · rw [if_neg (by simp [hc, hs])]
  · rw [if_pos (by simp [Bool.eq_false_iff.mpr hs])]
    exact Bool.eq_false_iff.mpr hs

theorem startScan_acts_of_ready (s : DState) (now : Time) (hc : s.hasCentral = true)
    (hs : s.scanning = false) : (startScan s now).2 = [Act.scanStart] := by
  unfold startScan
  rw [if_neg (by simp [hc, hs])]

theorem scanPair_has_start (s : DState) (now : Time) (hc : s.hasCentral = true) :
    Act.scanStart ∈ (stopScan s).2 ++ (startScan (stopScan s).1 now).2 := by
  apply List.mem_append.mpr
  right
  rw [startScan_acts_of_ready _ now (by rw [stopScan_hasCentral]; exact hc)
    (stopScan_scanning_false s hc)]
  exact List.mem_singleton.mpr rfl

/-- Full characterization of the reconnect-tick loop over the snapshot
`entries`: how each pending entry is re-armed or dropped, exactly which
connect requests go out, when the scanner is restarted, and exactly which
devices are marked connecting. -/
theorem tickLoop_spec (now : Time) :
    ∀ (entries : List (DeviceId × Time)) (s : DState),
      (entries.map Prod.fst).Nodup →
      ((∀ id, dlookup (tickLoop s entries now).1.pending_reconnect id =
          (match dlookup entries id with
           | none => dlookup s.pending_reconnect id
           | some ts =>
               if now < ts then dlookup s.pending_reconnect id
               else if id ∈ s.connected_ids then none
               else some (now + s.reconnect_interval)))
       ∧ (∀ id, Act.connectReq id ∈ (tickLoop s entries now).2 ↔
            (∃ ts, dlookup entries id = some ts ∧ ¬ now < ts ∧ id ∉ s.connected_ids
              ∧ id ∉ s.connecting_ids ∧ id ∈ s.peripherals))
       ∧ (s.hasCentral = true →
           (∃ p ∈ entries, ¬ now < p.2 ∧ p.1 ∉ s.connected_ids
             ∧ p.1 ∉ s.connecting_ids ∧ p.1 ∉ s.peripherals) →
           Act.scanStart ∈ (tickLoop s entries now).2)
       ∧ (∀ x, x ∈ (tickLoop s entries now).1.connecting_ids ↔
            x ∈ s.connecting_ids
            ∨ (∃ ts, dlookup entries x = some ts ∧ ¬ now < ts ∧ x ∉ s.connected_ids
                ∧ x ∉ s.connecting_ids ∧ x ∈ s.peripherals)))
  | [], s, _ => by
      refine ⟨fun id => rfl, fun id => ?_, fun _ hex => ?_, fun x => ?_⟩
      · simp [tickLoop, dlookup]
      · rcases hex with ⟨p, hp, _⟩
        simp at hp
      · simp [tickLoop, dlookup]
  | (k, v) :: rest, s, hnd => by
      have hnd' : (rest.map Prod.fst).Nodup := (List.nodup_cons.mp hnd).2
      have hknotin : k ∉ rest.map Prod.fst := (List.nodup_cons.mp hnd).1
      have hknone : dlookup rest k = none := (dlookup_eq_none_iff rest k).mpr hknotin
      dsimp only [tickLoop]
      by_cases hdue : now < v
      · rw [if_pos hdue]
        obtain ⟨ihA, ihB, ihC, ihD⟩ := tickLoop_spec now rest s hnd'
        refine ⟨?_, ?_, ?_, ?_⟩
        · intro id
          by_cases hk : k = id
          · subst hk
            rw [ihA k, hknone, dlookup_cons_self]
            dsimp only
            rw [if_pos hdue]
          · rw [dlookup_cons_ne rest k v id hk]
            exact ihA id
        · intro id
          rw [ihB id]
          by_cases hk : k = id
          · subst hk
            rw [hknone, dlookup_cons_self]
            constructor
            · rintro ⟨ts, hts, -⟩
              exact Option.noConfusion hts
            · rintro ⟨ts, hts, h2, -⟩
              injection hts with h'
              subst h'
              exact absurd hdue h2
          · rw [dlookup_cons_ne rest k v id hk]
        · intro hc hex
          apply ihC hc
          rcases hex with ⟨p, hp, h1, h2, h3, h4⟩
          rcases List.mem_cons.mp hp with rfl | hp'
          · exact absurd hdue h1
          · exact ⟨p, hp', h1, h2, h3, h4⟩
        · intro x
          rw [ihD x]
          by_cases hk : k = x
          · subst hk
            rw [hknone, dlookup_cons_self]
            constructor
            · rintro (h | ⟨ts, hts, -⟩)
              · exact Or.inl h
              · exact Option.noConfusion hts
            · rintro (h | ⟨ts, hts, h2, -⟩)
              · exact Or.inl h
              · injection hts with h'
                subst h'
                exact absurd hdue h2
          · rw [dlookup_cons_ne rest k v x hk]
      · rw [if_neg hdue]
        by_cases hconn : k ∈ s.connected_ids
        · rw [if_pos hconn]
          obtain ⟨ihA, ihB, ihC, ihD⟩ := tickLoop_spec now rest
            { s with pending_reconnect := dictErase s.pending_reconnect k } hnd'
          refine ⟨?_, ?_, ?_, ?_⟩
          · intro id
            by_cases hk : k = id
            · subst hk
              rw [ihA k, hknone, dlookup_cons_self]
              dsimp only
              rw [if_neg hdue, if_pos hconn]
              exact dlookup_dictErase_self s.pending_reconnect k
            · rw [dlookup_cons_ne rest k v id hk, ihA id]
              have hne : id ≠ k := fun e => hk e.symm
              cases h : dlookup rest id with
              | none =>
                  dsimp only
                  exact dlookup_dictErase_ne _ _ _ hne
              | some ts =>
                  dsimp only
                  split_ifs
                  · exact dlookup_dictErase_ne _ _ _ hne
                  · rfl
                  · rfl
          · intro id
            rw [ihB id]
            by_cases hk : k = id
            · subst hk
              rw [hknone]
              constructor
              · rintro ⟨ts, hts, -⟩
                exact Option.noConfusion hts
              · rintro ⟨ts, -, -, h3, -⟩
                exact absurd hconn h3
            · rw [dlookup_cons_ne rest k v id hk]
          · intro hc hex
            apply ihC hc
            rcases hex with ⟨p, hp, h1, h2, h3, h4⟩
            rcases List.mem_cons.mp hp with rfl | hp'
            · exact absurd hconn h2
            · exact ⟨p, hp', h1, h2, h3, h4⟩
          · intro x
            rw [ihD x]
            by_cases hk : k = x
            · subst hk
              rw [hknone, dlookup_cons_self]
              constructor
              · rintro (h | ⟨ts, hts, -⟩)
                · exact Or.inl h
                · exact Option.noConfusion hts
              · rintro (h | ⟨ts, -, -, h3, -⟩)
                · exact Or.inl h
                · exact absurd hconn h3
            · rw [dlookup_cons_ne rest k v x hk]
        · rw [if_neg hconn]
          by_cases hcing : k ∈ s.connecting_ids
          · rw [if_pos hcing]
            obtain ⟨ihA, ihB, ihC, ihD⟩ := tickLoop_spec now rest
              { s with pending_reconnect :=
                  dictSet s.pending_reconnect k (now + s.reconnect_interval) } hnd'
            refine ⟨?_, ?_, ?_, ?_⟩
            · intro id
              by_cases hk : k = id
              · subst hk
                rw [ihA k, hknone, dlookup_cons_self]
                dsimp only
                rw [if_neg hdue, if_neg hconn]
                exact dlookup_dictSet_self s.pending_reconnect k _
              · rw [dlookup_cons_ne rest k v id hk, ihA id]
                have hne : id ≠ k := fun e => hk e.symm
                cases h : dlookup rest id with
                | none =>
                    dsimp only
                    exact dlookup_dictSet_ne _ _ _ _ hne
                | some ts =>
                    dsimp only
                    split_ifs
                    · exact dlookup_dictSet_ne _ _ _ _ hne
                    · rfl
                    · rfl
            · intro id
              rw [ihB id]
              by_cases hk : k = id
              · subst hk
                rw [hknone]
                constructor
                · rintro ⟨ts, hts, -⟩
                  exact Option.noConfusion hts
                · rintro ⟨ts, -, -, -, h4, -⟩
                  exact absurd hcing h4
              · rw [dlookup_cons_ne rest k v id hk]
            · intro hc hex
              apply ihC hc
              rcases hex with ⟨p, hp, h1, h2, h3, h4⟩
              rcases List.mem_cons.mp hp with rfl | hp'
              · exact absurd hcing h3
              · exact ⟨p, hp', h1, h2, h3, h4⟩
            · intro x
              rw [ihD x]
              by_cases hk : k = x
              · subst hk
                rw [hknone, dlookup_cons_self]
                constructor
                · rintro (h | ⟨ts, hts, -⟩)
                  · exact Or.inl h
                  · exact Option.noConfusion hts
                · rintro (h | ⟨ts, -, -, -, h4, -⟩)
                  · exact Or.inl h
                  · exact absurd hcing h4
              · rw [dlookup_cons_ne rest k v x hk]
          · rw [if_neg hcing]
            by_cases hper : k ∈ s.peripherals
            · rw [if_pos hper]
              obtain ⟨ihA, ihB, ihC, ihD⟩ := tickLoop_spec now rest
                { s with connecting_ids := setAdd s.connecting_ids k,
                         pending_reconnect :=
                           dictSet s.pending_reconnect k (now + s.reconnect_interval) } hnd'
              refine ⟨?_, ?_, ?_, ?_⟩
              · intro id
                by_cases hk : k = id
                · subst hk
                  rw [ihA k, hknone, dlookup_cons_self]
                  dsimp only
                  rw [if_neg hdue, if_neg hconn]
                  exact dlookup_dictSet_self s.pending_reconnect k _
                · rw [dlookup_cons_ne rest k v id hk, ihA id]
                  have hne : id ≠ k := fun e => hk e.symm
                  cases h : dlookup rest id with
                  | none =>
                      dsimp only
                      exact dlookup_dictSet_ne _ _ _ _ hne
                  | some ts =>
                      dsimp only
                      split_ifs
                      · exact dlookup_dictSet_ne _ _ _ _ hne
                      · rfl
                      · rfl
              · intro id
                by_cases hk : k = id
                · subst hk
                  constructor
                  · intro _
                    exact ⟨v, dlookup_cons_self rest k v, hdue, hconn, hcing, hper⟩
                  · intro _
                    exact List.mem_cons_self _ _
                · rw [dlookup_cons_ne rest k v id hk]
                  constructor
                  · intro hmem
                    rcases List.mem_cons.mp hmem with heq | hmem'
                    · exfalso
                      injection heq with h'
                      exact hk h'.symm
                    · obtain ⟨ts, hts, h2, h3, h4, h5⟩ := (ihB id).mp hmem'
                      refine ⟨ts, hts, h2, h3, ?_, h5⟩
                      intro hmem2
                      exact h4 ((mem_setAdd s.connecting_ids k id).mpr (Or.inl hmem2))
                  · rintro ⟨ts, hts, h2, h3, h4, h5⟩
                    apply List.mem_cons_of_mem
                    apply (ihB id).mpr
                    refine ⟨ts, hts, h2, h3, ?_, h5⟩
                    intro hmem2
                    rcases (mem_setAdd s.connecting_ids k id).mp hmem2 with hmm | hmm
                    · exact h4 hmm
                    · exact hk hmm.symm
              · intro hc hex
                rcases hex with ⟨p, hp, h1, h2, h3, h4⟩
                rcases List.mem_cons.mp hp with rfl | hp'
                · exact absurd hper h4
                · apply List.mem_cons_of_mem
                  apply ihC hc
                  have hpk : p.1 ≠ k := by
                    intro e
                    exact hknotin (e ▸ List.mem_map_of_mem Prod.fst hp')
                  refine ⟨p, hp', h1, h2, ?_, h4⟩
                  intro hmem2
                  rcases (mem_setAdd s.connecting_ids k p.1).mp hmem2 with hmm | hmm
                  · exact h3 hmm
                  · exact hpk hmm
              · intro x
                by_cases hk : k = x
                · subst hk
                  constructor
                  · intro _
                    exact Or.inr ⟨v, dlookup_cons_self rest k v, hdue, hconn, hcing, hper⟩
                  · intro _
                    apply (ihD k).mpr
                    exact Or.inl ((mem_setAdd s.connecting_ids k k).mpr (Or.inr rfl))
                · rw [dlookup_cons_ne rest k v x hk]
                  constructor
                  · intro hmem
                    rcases (ihD x).mp hmem with h | ⟨ts, hts, h2, h3, h4, h5⟩
                    · rcases (mem_setAdd s.connecting_ids k x).mp h with h' | h'
                      · exact Or.inl h'
                      · exact absurd h'.symm hk
                    · refine Or.inr ⟨ts, hts, h2, h3, ?_, h5⟩
                      intro hmm
                      exact h4 ((mem_setAdd s.connecting_ids k x).mpr (Or.inl hmm))
                  · intro h
                    apply (ihD x).mpr
                    rcases h with h | ⟨ts, hts, h2, h3, h4, h5⟩
                    · exact Or.inl ((mem_setAdd s.connecting_ids k x).mpr (Or.inl h))
                    · refine Or.inr ⟨ts, hts, h2, h3, ?_, h5⟩
                      intro hmm
                      rcases (mem_setAdd s.connecting_ids k x).mp hmm with hmm' | hmm'
                      · exact h4 hmm'
                      · exact hk hmm'.symm
            · rw [if_neg hper]
              have hS := scanPair_state s now
              rw [hS]
              obtain ⟨ihA, ihB, ihC, ihD⟩ := tickLoop_spec now rest
                { s with scanning := (startScan (stopScan s).1 now).1.scanning,
                         last_scan_start := (startScan (stopScan s).1 now).1.last_scan_start,
                         pending_reconnect :=
                           dictSet s.pending_reconnect k (now + s.reconnect_interval) } hnd'
              refine ⟨?_, ?_, ?_, ?_⟩
              · intro id
                by_cases hk : k = id
                · subst hk
                  rw [ihA k, hknone, dlookup_cons_self]
                  dsimp only
                  rw [if_neg hdue, if_neg hconn]
                  exact dlookup_dictSet_self s.pending_reconnect k _
                · rw [dlookup_cons_ne rest k v id hk, ihA id]
                  have hne : id ≠ k := fun e => hk e.symm
                  cases h : dlookup rest id with
                  | none =>
                      dsimp only
                      exact dlookup_dictSet_ne _ _ _ _ hne
                  | some ts =>
                      dsimp only
                      split_ifs
                      · exact dlookup_dictSet_ne _ _ _ _ hne
                      · rfl
                      · rfl
              · intro id
                constructor
                · intro hmem
                  rcases List.mem_append.mp hmem with hscan | hmem'
                  · rcases scanPair_actions s now _ hscan with h | h
                    · exact Act.noConfusion h
                    · exact Act.noConfusion h
                  · obtain ⟨ts, hts, h2, h3, h4, h5⟩ := (ihB id).mp hmem'
                    by_cases hk : k = id
                    · subst hk
                      rw [hknone] at hts
                      exact Option.noConfusion hts
                    · rw [dlookup_cons_ne rest k v id hk]
                      exact ⟨ts, hts, h2, h3, h4, h5⟩
                · rintro ⟨ts, hts, h2, h3, h4, h5⟩
                  apply List.mem_append.mpr
                  right
                  apply (ihB id).mpr
                  by_cases hk : k = id
                  · subst hk
                    rw [dlookup_cons_self] at hts
                    injection hts with h'
                    subst h'
                    exact absurd h5 hper
                  · rw [dlookup_cons_ne rest k v id hk] at hts
                    exact ⟨ts, hts, h2, h3, h4, h5⟩
              · intro hc hex
                rcases hex with ⟨p, hp, h1, h2, h3, h4⟩
                rcases List.mem_cons.mp hp with rfl | hp'
                · exact List.mem_append.mpr (Or.inl (scanPair_has_start s now hc))
                · exact List.mem_append.mpr
                    (Or.inr (ihC hc ⟨p, hp', h1, h2, h3, h4⟩))
              · intro x
                rw [ihD x]
                by_cases hk : k = x
                · subst hk
                  rw [hknone, dlookup_cons_self]
                  constructor
                  · rintro (h | ⟨ts, hts, -⟩)
                    · exact Or.inl h
                    · exact Option.noConfusion hts
                  · rintro (h | ⟨ts, -, -, -, -, h5⟩)
                    · exact Or.inl h
                    · exact absurd h5 hper
                · rw [dlookup_cons_ne rest k v x hk]

/-- The per-entry fate of a pending-reconnect entry on a powered tick:
not yet due — untouched; due and connected — dropped; otherwise re-armed to
`now + backoff`. -/
def tickPendSpec (s : DState) (now : Time) (id : DeviceId) : Option Time :=
  match dlookup s.pending_reconnect id with
  | none => none
  | some ts =>
      if now < ts then some ts
      else if id ∈ s.connected_ids then none
      else some (now + s.reconnect_interval)

/-- C5: on a tick with the transport not powered, every pending entry is
re-armed to `now + backoff`, nothing is attempted and nothing is marked
connecting; on a powered tick each due entry is dropped if connected,
re-armed with no duplicate attempt if connecting; a due device with a cached
handle is marked connecting — the connecting set afterwards is exactly the
old one plus the due, unconnected, not-yet-connecting devices with cached
handles — and a connect request is issued for precisely those devices;
for a due device with no cached handle the scanner is (re)started instead;
re-arming to `now + backoff` happens in every non-drop branch. -/
theorem claim_C5_tick_behaviour (s : DState) (now : Time) :
    (s.pending_reconnect.isEmpty = false → (!s.hasCentral || !s.poweredOn) = true →
      (tick s now).1.pending_reconnect
          = s.pending_reconnect.map (fun p => (p.1, now + s.reconnect_interval))
      ∧ (tick s now).2 = []
      ∧ (tick s now).1.connecting_ids = s.connecting_ids)
    ∧ (s.hasCentral = true → s.poweredOn = true →
        (s.pending_reconnect.map Prod.fst).Nodup →
        (∀ id, dlookup (tick s now).1.pending_reconnect id = tickPendSpec s now id)
        ∧ (∀ id, Act.connectReq id ∈ (tick s now).2 ↔
            (∃ ts, dlookup s.pending_reconnect id = some ts ∧ ¬ now < ts
              ∧ id ∉ s.connected_ids ∧ id ∉ s.connecting_ids ∧ id ∈ s.peripherals))
        ∧ ((∃ p ∈ s.pending_reconnect, ¬ now < p.2 ∧ p.1 ∉ s.connected_ids
              ∧ p.1 ∉ s.connecting_ids ∧ p.1 ∉ s.peripherals) →
            Act.scanStart ∈ (tick s now).2)
        ∧ (∀ id, id ∈ (tick s now).1.connecting_ids ↔
            id ∈ s.connecting_ids
            ∨ (∃ ts, dlookup s.pending_reconnect id = some ts ∧ ¬ now < ts
                ∧ id ∉ s.connected_ids ∧ id ∉ s.connecting_ids ∧ id ∈ s.peripherals))) := by
  constructor
  · intro hne hready
    dsimp only [tick]
    rw [if_neg (by simp [hne]), if_pos hready]
    exact ⟨rfl, rfl, rfl⟩
  · intro hc hp hnd
    cases hl : s.pending_reconnect with
    | nil =>
        have htick : tick s now = (s, []) := by
          dsimp only [tick]
          rw [if_pos (by rw [hl]; rfl)]
        refine ⟨?_, ?_, ?_, ?_⟩
        · intro id
          rw [htick]
          unfold tickPendSpec
          simp [hl, dlookup]
        · intro id
          rw [htick]
          simp [hl, dlookup]
        · rintro ⟨p, hp', -⟩
          simp at hp'
        · intro id
          rw [htick]
          simp [dlookup]
    | cons q qrest =>
        have hempty : s.pending_reconnect.isEmpty = false := by rw [hl]; rfl
        have htick : tick s now = tickLoop s s.pending_reconnect now := by
          dsimp only [tick]
          rw [if_neg (by simp [hempty]), if_neg (by simp [hc, hp])]
        obtain ⟨ihA, ihB, ihC, ihD⟩ := tickLoop_spec now s.pending_reconnect s hnd
        refine ⟨?_, ?_, ?_, ?_⟩
        · intro id
          rw [htick, ihA id]
          unfold tickPendSpec
          cases h : dlookup s.pending_reconnect id with
          | none => rfl
          | some ts => rfl
        · intro id
          rw [htick, ← hl]
          exact ihB id
        · intro hex
          rw [← hl] at hex
          rw [htick]
          exact ihC hc hex
        · intro id
          rw [htick, ← hl]
          exact ihD id

/-- Witness for C5: a state with pending entries for a connected device "A"
(due, dropped), a connecting device "B" (due, re-armed without a connect
request), a cached-handle device "C" (due, marked connecting, connect
requested and re-armed), and a handle-less device "D" (due, scanner
restarted, not marked connecting); plus the not-powered re-arm case. -/
def c5s : DState :=
  { hrDelegateInit with
    hasCentral := true, poweredOn := true,
    connected_ids := ["A"], connecting_ids := ["B"], peripherals := ["A", "B", "C"],
    pending_reconnect := [("A", 3), ("B", 4), ("C", 5), ("D", 6)] }

theorem claim_C5_tick_behaviour_witness :
    dlookup (tick c5s 10).1.pending_reconnect "A" = none
    ∧ dlookup (tick c5s 10).1.pending_reconnect "B" = some 15
    ∧ (Act.connectReq "B" ∈ (tick c5s 10).2 ↔ False)
    ∧ Act.connectReq "C" ∈ (tick c5s 10).2
    ∧ "C" ∈ (tick c5s 10).1.connecting_ids
    ∧ "B" ∈ (tick c5s 10).1.connecting_ids
    ∧ ("D" ∈ (tick c5s 10).1.connecting_ids ↔ False)
    ∧ Act.scanStart ∈ (tick c5s 10).2
    ∧ (tick { c5s with poweredOn := false } 10).1.pending_reconnect
        = [("A", 15), ("B", 15), ("C", 15), ("D", 15)]
    ∧ (tick { c5s with poweredOn := false } 10).1.connecting_ids
        = c5s.connecting_ids := by
  obtain ⟨h1, h2⟩ := claim_C5_tick_behaviour c5s 10
  obtain ⟨hA, hB, hC, hD⟩ := h2 rfl rfl (by decide)
  obtain ⟨hN1, hN2, hN3⟩ :=
    (claim_C5_tick_behaviour { c5s with poweredOn := false } 10).1 rfl rfl
  refine ⟨?_, ?_, ?_, ?_, ?_, ?_, ?_, ?_, hN1, hN3⟩
  · rw [hA "A"]; decide
  · rw [hA "B"]; decide
  · constructor
    · intro hmem
      obtain ⟨ts, hts, hdue, hcn, hcg, hpe⟩ := (hB "B").mp hmem
      exact hcg (by decide)
    · intro hf
      exact absurd hf (fun h => h)
  · exact (hB "C").mpr ⟨5, by decide, by decide, by decide, by decide, by decide⟩
  · exact (hD "C").mpr (Or.inr ⟨5, by decide, by decide, by decide, by decide, by decide⟩)
  · exact (hD "B").mpr (Or.inl (by decide))
  · constructor
    · intro hmem
      rcases (hD "D").mp hmem with h | ⟨ts, -, -, -, -, h5⟩
      · exact absurd h (by decide)
      · exact absurd h5 (by decide)
    · intro hf
      exact hf.elim
  · exact hC ⟨("D", 6), by decide, by decide, by decide, by decide, by decide⟩

/-! ## Machinery for the block/reconnect exclusion invariant (C3) -/

/-- Device `id` has a block entry that has not yet expired at time `t`. -/
def BlockedUnexpired (d : DState) (id : DeviceId) (t : Time) : Prop :=
  ∃ u, dlookup d.blocked_ids id = some u ∧ t < u

theorem connect_peripheral_J (s : DState) (id : DeviceId) (dn an : Option String) :
    (connect_peripheral s id dn an).1.connected_ids = s.connected_ids
    ∧ (connect_peripheral s id dn an).1.pending_reconnect = s.pending_reconnect
    ∧ (connect_peripheral s id dn an).1.blocked_ids = s.blocked_ids
    ∧ (∀ x, x ∈ (connect_peripheral s id dn an).1.connecting_ids →
        x ∈ s.connecting_ids ∨ (x = id ∧ x ∉ s.connected_ids)) := by
  rw [connect_peripheral_fst]
  split
  · exact ⟨rfl, rfl, rfl, fun x hx => Or.inl hx⟩
  · rename_i hmem
    refine ⟨rfl, rfl, rfl, ?_⟩
    intro x hx
    rcases (mem_setAdd s.connecting_ids id x).mp hx with h | h
    · exact Or.inl h
    · refine Or.inr ⟨h, ?_⟩
      intro hc
      exact hmem (Or.inl (h ▸ hc))

theorem didDiscover_J (s : DState) (id : DeviceId) (dn an : Option String) (now : Time) :
    (didDiscover s id dn an now).1.connected_ids = s.connected_ids
    ∧ (didDiscover s id dn an now).1.pending_reconnect = s.pending_reconnect
    ∧ (∀ k u, dlookup (didDiscover s id dn an now).1.blocked_ids k = some u →
        dlookup s.blocked_ids k = some u)
    ∧ (∀ k u, dlookup s.blocked_ids k = some u → now < u →
        dlookup (didDiscover s id dn an now).1.blocked_ids k = some u)
    ∧ (∀ x, x ∈ (didDiscover s id dn an now).1.connecting_ids →
        x ∈ s.connecting_ids ∨ (x ∉ s.connected_ids ∧ ¬ BlockedUnexpired s x now)) := by
  obtain ⟨b, hsub, hkeep, hshape⟩ := didDiscover_shape s id dn an now
  rcases hshape with heq | ⟨heq, hcap, hbl, hd⟩
  · rw [heq]
    exact ⟨rfl, rfl, hsub, hkeep, fun x hx => Or.inl hx⟩
  · rw [heq]
    obtain ⟨hc1, hc2, hc3, hc4⟩ := connect_peripheral_J
      { s with peripherals := setAdd s.peripherals id,
               name_by_id := update_name_map s.name_by_id id dn an,
               blocked_ids := b } id dn an
    refine ⟨hc1, hc2, ?_, ?_, ?_⟩
    · intro k u h
      rw [hc3] at h
      exact hsub k u h
    · intro k u h hu
      rw [hc3]
      exact hkeep k u h hu
    · intro x hx
      rcases hc4 x hx with h | ⟨h1, h2⟩
      · exact Or.inl h
      · subst h1
        refine Or.inr ⟨h2, ?_⟩
        rintro ⟨u, hu1, hu2⟩
        exact hbl u hu1 hu2

theorem retrievedLoop_J :
    ∀ (l : List (DeviceId × Option String)) (s : DState) (now : Time),
      (retrievedLoop s l now).1.connected_ids = s.connected_ids
      ∧ (retrievedLoop s l now).1.pending_reconnect = s.pending_reconnect
      ∧ (∀ k u, dlookup (retrievedLoop s l now).1.blocked_ids k = some u →
          dlookup s.blocked_ids k = some u)
      ∧ (∀ k u, dlookup s.blocked_ids k = some u → now < u →
          dlookup (retrievedLoop s l now).1.blocked_ids k = some u)
      ∧ (∀ x, x ∈ (retrievedLoop s l now).1.connecting_ids →
          x ∈ s.connecting_ids ∨ (x ∉ s.connected_ids ∧ ¬ BlockedUnexpired s x now))
  | [], s, now => ⟨rfl, rfl, fun _ _ h => h, fun _ _ h _ => h, fun x hx => Or.inl hx⟩
  | (id, nm) :: rest, s, now => by
      dsimp only [retrievedLoop]
      by_cases hat : at_capacity s = true
      · rw [if_pos hat]
        exact ⟨rfl, rfl, fun _ _ h => h, fun _ _ h _ => h, fun x hx => Or.inl hx⟩
      · rw [if_neg hat]
        have hm1 := match_device_only_blocked s id nm none now
        by_cases hm2 : (match_device s id nm none now).2 = true
        · rw [if_neg (by simp [hm2])]
          obtain ⟨hc1, hc2, hc3, hc4⟩ :=
            connect_peripheral_J (match_device s id nm none now).1 id nm none
          obtain ⟨ih1, ih2, ih3, ih4, ih5⟩ :=
            retrievedLoop_J rest (connect_peripheral (match_device s id nm none now).1 id nm none).1 now
          have hmc : (match_device s id nm none now).1.connected_ids = s.connected_ids := by
            rw [hm1]
          have hmp : (match_device s id nm none now).1.pending_reconnect = s.pending_reconnect := by
            rw [hm1]
          have hmg : (match_device s id nm none now).1.connecting_ids = s.connecting_ids := by
            rw [hm1]
          refine ⟨?_, ?_, ?_, ?_, ?_⟩
          · rw [ih1, hc1, hmc]
          · rw [ih2, hc2, hmp]
          · intro k u h
            have h2 := ih3 k u h
            rw [hc3] at h2
            exact match_device_blocked_sub s id nm none now k u h2
          · intro k u h hu
            apply ih4 _ _ _ hu
            rw [hc3]
            exact match_device_blocked_keeps_unexpired s id nm none now k u h hu
          · intro x hx
            rcases ih5 x hx with h | ⟨h1, h2⟩
            · rcases hc4 x h with h' | ⟨he, hnc⟩
              · rw [hmg] at h'
                exact Or.inl h'
              · subst he
                refine Or.inr ⟨by rw [hmc] at hnc; exact hnc, ?_⟩
                rintro ⟨u, hu1, hu2⟩
                have := match_device_false_of_blocked s x nm none now u hu1 hu2
                rw [this] at hm2
                exact Bool.false_ne_true hm2
            · rw [hc1, hmc] at h1
              refine Or.inr ⟨h1, ?_⟩
              rintro ⟨u, hu1, hu2⟩
              apply h2
              refine ⟨u, ?_, hu2⟩
              rw [hc3]
              exact match_device_blocked_keeps_unexpired s id nm none now x u hu1 hu2
        · rw [if_pos (by simp [Bool.eq_false_iff.mpr hm2])]
          obtain ⟨ih1, ih2, ih3, ih4, ih5⟩ :=
            retrievedLoop_J rest (match_device s id nm none now).1 now
          refine ⟨?_, ?_, ?_, ?_, ?_⟩
          · rw [ih1, hm1]
          · rw [ih2, hm1]
          · intro k u h
            exact match_device_blocked_sub s id nm none now k u (ih3 k u h)
          · intro k u h hu
            exact ih4 _ _ (match_device_blocked_keeps_unexpired s id nm none now k u h hu) hu
          · intro x hx
            rcases ih5 x hx with h | ⟨h1, h2⟩
            · rw [hm1] at h
              exact Or.inl h
            · rw [hm1] at h1
              refine Or.inr ⟨h1, ?_⟩
              rintro ⟨u, hu1, hu2⟩
              apply h2
              exact ⟨u, match_device_blocked_keeps_unexpired s id nm none now x u hu1 hu2, hu2⟩

theorem didDisconnect_pending (s : DState) (id : DeviceId) (now : Time) :
    (∀ k, k ≠ id → dlookup (didDisconnect s id now).1.pending_reconnect k
        = dlookup s.pending_reconnect k)
    ∧ (∀ u, dlookup s.blocked_ids id = some u → now < u →
        (didDisconnect s id now).1.pending_reconnect = s.pending_reconnect) := by
  dsimp only [didDisconnect]
  constructor
  · intro k hk
    cases hb : dlookup s.blocked_ids id with
    | none => exact dlookup_schedule_ne _ _ _ _ hk
    | some u =>
        dsimp only
        by_cases hu : now < u
        · rw [if_pos hu]
        · rw [if_neg hu]
          exact dlookup_schedule_ne _ _ _ _ hk
  · intro u hb hu
    rw [hb]
    dsimp only
    rw [if_pos hu]

theorem tickLoop_J :
    ∀ (entries : List (DeviceId × Time)) (s : DState) (now : Time),
      (∀ p ∈ entries, ¬ BlockedUnexpired s p.1 now) →
      (tickLoop s entries now).1.connected_ids = s.connected_ids
      ∧ (tickLoop s entries now).1.blocked_ids = s.blocked_ids
      ∧ (∀ x, x ∈ (tickLoop s entries now).1.connecting_ids →
          x ∈ s.connecting_ids ∨ (x ∉ s.connected_ids ∧ ¬ BlockedUnexpired s x now))
      ∧ (∀ k, k ∉ entries.map Prod.fst →
          dlookup (tickLoop s entries now).1.pending_reconnect k
            = dlookup s.pending_reconnect k)
  | [], s, now, _ => ⟨rfl, rfl, fun x hx => Or.inl hx, fun _ _ => rfl⟩
  | (k, v) :: rest, s, now, hnb => by
      have hnbr : ∀ p ∈ rest, ¬ BlockedUnexpired s p.1 now :=
        fun p hp => hnb p (List.mem_cons_of_mem _ hp)
      have hnbk : ¬ BlockedUnexpired s k now := hnb (k, v) (List.mem_cons_self _ _)
      dsimp only [tickLoop]
      by_cases hdue : now < v
      · rw [if_pos hdue]
        obtain ⟨ih1, ih2, ih3, ih4⟩ := tickLoop_J rest s now hnbr
        refine ⟨ih1, ih2, ih3, ?_⟩
        intro x hx
        exact ih4 x (fun hmm => hx (by simp [hmm]))
      · rw [if_neg hdue]
        by_cases hconn : k ∈ s.connected_ids
        · rw [if_pos hconn]
          obtain ⟨ih1, ih2, ih3, ih4⟩ := tickLoop_J rest
            { s with pending_reconnect := dictErase s.pending_reconnect k } now
            (fun p hp => hnbr p hp)
          refine ⟨ih1, ih2, ?_, ?_⟩
          · intro x hx
            exact ih3 x hx
          · intro x hx
            have hxk : x ≠ k := fun e => hx (by simp [e])
            have hxr : x ∉ rest.map Prod.fst := fun hm => hx (by simp [hm])
            rw [ih4 x hxr]
            exact dlookup_dictErase_ne _ _ _ hxk
        · rw [if_neg hconn]
          by_cases hcing : k ∈ s.connecting_ids
          · rw [if_pos hcing]
            obtain ⟨ih1, ih2, ih3, ih4⟩ := tickLoop_J rest
              { s with pending_reconnect :=
                  dictSet s.pending_reconnect k (now + s.reconnect_interval) } now
              (fun p hp => hnbr p hp)
            refine ⟨ih1, ih2, ?_, ?_⟩
            · intro x hx
              exact ih3 x hx
            · intro x hx
              have hxk : x ≠ k := fun e => hx (by simp [e])
              have hxr : x ∉ rest.map Prod.fst := fun hm => hx (by simp [hm])
              rw [ih4 x hxr]
              exact dlookup_dictSet_ne _ _ _ _ hxk
          · rw [if_neg hcing]
            by_cases hper : k ∈ s.peripherals
            · rw [if_pos hper]
              obtain ⟨ih1, ih2, ih3, ih4⟩ := tickLoop_J rest
                { s with connecting_ids := setAdd s.connecting_ids k,
                         pending_reconnect :=
                           dictSet s.pending_reconnect k (now + s.reconnect_interval) } now
                (fun p hp => hnbr p hp)
              refine ⟨ih1, ih2, ?_, ?_⟩
              · intro x hx
                rcases ih3 x hx with h | ⟨h1, h2⟩
                · rcases (mem_setAdd s.connecting_ids k x).mp h with h' | h'
                  · exact Or.inl h'
                  · subst h'
                    exact Or.inr ⟨hconn, hnbk⟩
                · exact Or.inr ⟨h1, h2⟩
              · intro x hx
                have hxk : x ≠ k := fun e => hx (by simp [e])
                have hxr : x ∉ rest.map Prod.fst := fun hm => hx (by simp [hm])
                rw [ih4 x hxr]
                exact dlookup_dictSet_ne _ _ _ _ hxk
            · rw [if_neg hper]
              have hS := scanPair_state s now
              rw [hS]
              obtain ⟨ih1, ih2, ih3, ih4⟩ := tickLoop_J rest
                { s with scanning := (startScan (stopScan s).1 now).1.scanning,
                         last_scan_start := (startScan (stopScan s).1 now).1.last_scan_start,
                         pending_reconnect :=
                           dictSet s.pending_reconnect k (now + s.reconnect_interval) } now
                (fun p hp => hnbr p hp)
              refine ⟨ih1, ih2, ?_, ?_⟩
              · intro x hx
                exact ih3 x hx
              · intro x hx
                have hxk : x ≠ k := fun e => hx (by simp [e])
                have hxr : x ∉ rest.map Prod.fst := fun hm => hx (by simp [hm])
                rw [ih4 x hxr]
                exact dlookup_dictSet_ne _ _ _ _ hxk

/-- The inductive invariant for C3: connected and connecting are disjoint,
every in-flight GATT request belongs to a connected device, and a device with
an unexpired block entry is neither connecting, nor has an in-flight request,
nor a pending-reconnect entry. -/
def Jinv (y : Sys) (t : Time) : Prop :=
  (∀ id, id ∈ y.d.connected_ids → id ∉ y.d.connecting_ids)
  ∧ (∀ id op, dlookup y.inflight id = some op → id ∈ y.d.connected_ids)
  ∧ (∀ id u, dlookup y.d.blocked_ids id = some u → t < u →
      id ∉ y.d.connecting_ids ∧ dlookup y.inflight id = none
        ∧ dlookup y.d.pending_reconnect id = none)

theorem Jinv_step {y : Sys} {t t' : Time} (e : Ev) (hJ : Jinv y t) (ht : t ≤ t')
    (hwf : WfEv y e) : Jinv (stepEv y e t') t' := by
  obtain ⟨hI0, hI5, hIb⟩ := hJ
  cases e with
  | updateState p r =>
      cases p with
      | false =>
          refine ⟨fun id h => hI0 id h, fun id op h => hI5 id op h, ?_⟩
          intro id u hb hu
          exact hIb id u hb (lt_of_le_of_lt ht hu)
      | true =>
          have hst : (didUpdateState y.d true r t').1
              = (startScan (retrievedLoop
                  { y.d with hasCentral := true, poweredOn := true } r t').1 t').1 := by
            dsimp only [didUpdateState]
            rw [if_neg (by decide : ¬ ((!true) = true))]
          dsimp only [stepEv]
          rw [hst]
          obtain ⟨f1, f2, f3, f4, _, _⟩ := startScan_frame
            (retrievedLoop { y.d with hasCentral := true, poweredOn := true } r t').1 t'
          obtain ⟨r1, r2, r3, r4, r5⟩ := retrievedLoop_J r
            { y.d with hasCentral := true, poweredOn := true } t'
          refine ⟨?_, ?_, ?_⟩
          · intro x hx1 hx2
            rw [f1, r1] at hx1
            rw [f2] at hx2
            rcases r5 x hx2 with h | ⟨h1, _⟩
            · exact hI0 x hx1 h
            · exact h1 hx1
          · intro i op h
            rw [f1, r1]
            exact hI5 i op h
          · intro i u hb hu
            rw [f4] at hb
            have hb0 := r3 i u hb
            obtain ⟨j1, j2, j3⟩ := hIb i u hb0 (lt_of_le_of_lt ht hu)
            refine ⟨?_, j2, ?_⟩
            · rw [f2]
              intro hmm
              rcases r5 i hmm with h | ⟨_, h2⟩
              · exact j1 h
              · exact h2 ⟨u, hb0, hu⟩
            · rw [f3, r2]
              exact j3
  | discover id dn an =>
      dsimp only [stepEv]
      obtain ⟨g1, g2, g3, g4, g5⟩ := didDiscover_J y.d id dn an t'
      refine ⟨?_, ?_, ?_⟩
      · intro x hx1 hx2
        rw [g1] at hx1
        rcases g5 x hx2 with h | ⟨h1, _⟩
        · exact hI0 x hx1 h
        · exact h1 hx1
      · intro i op h
        rw [g1]
        exact hI5 i op h
      · intro i u hb hu
        have hb0 := g3 i u hb
        obtain ⟨j1, j2, j3⟩ := hIb i u hb0 (lt_of_le_of_lt ht hu)
        refine ⟨?_, j2, ?_⟩
        · intro hmm
          rcases g5 i hmm with h | ⟨_, h2⟩
          · exact j1 h
          · exact h2 ⟨u, hb0, hu⟩
        · rw [g2]
          exact j3
  | connectOk id =>
      have hmem : id ∈ y.d.connecting_ids := hwf
      dsimp only [stepEv]
      obtain ⟨c1, c2, c3, c4, _⟩ := didConnect_frame y.d id
      refine ⟨?_, ?_, ?_⟩
      · intro x hx1 hx2
        rw [c1] at hx1
        rw [c2] at hx2
        obtain ⟨hx2a, hx2b⟩ := (mem_setRemove _ _ _).mp hx2
        rcases (mem_setAdd _ _ _).mp hx1 with h | h
        · exact hI0 x h hx2a
        · exact hx2b h
      · intro i op h
        rw [c1]
        by_cases hik : i = id
        · subst hik
          exact (mem_setAdd _ _ _).mpr (Or.inr rfl)
        · rw [dlookup_dictSet_ne _ _ _ _ hik] at h
          exact (mem_setAdd _ _ _).mpr (Or.inl (hI5 i op h))
      · intro i u hb hu
        rw [c4] at hb
        obtain ⟨j1, j2, j3⟩ := hIb i u hb (lt_of_le_of_lt ht hu)
        have hik : i ≠ id := fun e => j1 (e ▸ hmem)
        refine ⟨?_, ?_, ?_⟩
        · rw [c2]
          intro hmm
          exact j1 ((mem_setRemove _ _ _).mp hmm).1
        · rw [dlookup_dictSet_ne _ _ _ _ hik]
          exact j2
        · rw [c3, dlookup_dictErase_ne _ _ _ hik]
          exact j3
  | connectFail id =>
      have hmem : id ∈ y.d.connecting_ids := hwf
      dsimp only [stepEv]
      obtain ⟨f1, f2, f3, _⟩ := didFail_frame y.d id t'
      refine ⟨?_, ?_, ?_⟩
      · intro x hx1 hx2
        rw [f1] at hx1
        rw [f2] at hx2
        exact hI0 x hx1 ((mem_setRemove _ _ _).mp hx2).1
      · intro i op h
        rw [f1]
        exact hI5 i op h
      · intro i u hb hu
        rw [f3] at hb
        obtain ⟨j1, j2, j3⟩ := hIb i u hb (lt_of_le_of_lt ht hu)
        have hik : i ≠ id := fun e => j1 (e ▸ hmem)
        refine ⟨?_, j2, ?_⟩
        · rw [f2]
          intro hmm
          exact j1 ((mem_setRemove _ _ _).mp hmm).1
        · have heq : dlookup (didFail y.d id t').1.pending_reconnect i
              = dlookup y.d.pending_reconnect i := by
            have h2 := dlookup_schedule_ne
              ({ y.d with connected := false
                          connecting_ids := setRemove y.d.connecting_ids id }) id i t' hik
            exact h2
          rw [heq]
          exact j3
  | disconnect id =>
      dsimp only [stepEv]
      obtain ⟨f1, f2, f3, _⟩ := didDisconnect_frame y.d id t'
      obtain ⟨p1, p2⟩ := didDisconnect_pending y.d id t'
      refine ⟨?_, ?_, ?_⟩
      · intro x hx1 hx2
        rw [f1] at hx1
        rw [f2] at hx2
        exact hI0 x ((mem_setRemove _ _ _).mp hx1).1 hx2
      · intro i op h
        by_cases hik : i = id
        · subst hik
          rw [dlookup_dictErase_self] at h
          exact Option.noConfusion h
        · rw [dlookup_dictErase_ne _ _ _ hik] at h
          rw [f1]
          exact (mem_setRemove _ _ _).mpr ⟨hI5 i op h, hik⟩
      · intro i u hb hu
        rw [f3] at hb
        obtain ⟨j1, j2, j3⟩ := hIb i u hb (lt_of_le_of_lt ht hu)
        refine ⟨?_, ?_, ?_⟩
        · rw [f2]
          exact j1
        · by_cases hik : i = id
          · subst hik
            exact dlookup_dictErase_self _ _
          · rw [dlookup_dictErase_ne _ _ _ hik]
            exact j2
        · by_cases hik : i = id
          · subst hik
            rw [p2 u hb hu]
            exact j3
          · rw [p1 i hik]
            exact j3
  | services id err svcs =>
      obtain ⟨hfl, hconn, -⟩ := hwf
      dsimp only [stepEv]
      by_cases he : err = true
      · have hd : (didDiscoverServices y.d id err svcs t').1 = schedule_reconnect y.d id t' := by
          dsimp only [didDiscoverServices]
          rw [if_pos he]
        rw [hd, if_pos he]
        obtain ⟨q1, q2, q3, _⟩ := schedule_reconnect_frame y.d id t'
        refine ⟨?_, ?_, ?_⟩
        · intro x hx1 hx2
          rw [q1] at hx1
          rw [q2] at hx2
          exact hI0 x hx1 hx2
        · intro i op h
          by_cases hik : i = id
          · subst hik
            rw [dlookup_dictErase_self] at h
            exact Option.noConfusion h
          · rw [dlookup_dictErase_ne _ _ _ hik] at h
            rw [q1]
            exact hI5 i op h
        · intro i u hb hu
          rw [q3] at hb
          obtain ⟨j1, j2, j3⟩ := hIb i u hb (lt_of_le_of_lt ht hu)
          by_cases hik : i = id
          · subst hik
            exact absurd (j2.symm.trans hfl) (by simp)
          · refine ⟨?_, ?_, ?_⟩
            · rw [q2]
              exact j1
            · rw [dlookup_dictErase_ne _ _ _ hik]
              exact j2
            · rw [dlookup_schedule_ne _ _ _ _ hik]
              exact j3
      · by_cases hh : (svcs.filter (fun u => decide (u = HR_SERVICE))).isEmpty = true
        · have hd : (didDiscoverServices y.d id err svcs t').1 = block_device y.d id t' := by
            dsimp only [didDiscoverServices]
            rw [if_neg he, if_pos hh]
          rw [hd, if_neg he, if_pos hh]
          refine ⟨?_, ?_, ?_⟩
          · intro x hx1 hx2
            exact hI0 x hx1 hx2
          · intro i op h
            by_cases hik : i = id
            · subst hik
              rw [dlookup_dictErase_self] at h
              exact Option.noConfusion h
            · rw [dlookup_dictErase_ne _ _ _ hik] at h
              exact hI5 i op h
          · intro i u hb hu
            by_cases hik : i = id
            · subst hik
              exact ⟨hI0 i hconn, dlookup_dictErase_self _ _, dlookup_dictErase_self _ _⟩
            · have hb' : dlookup y.d.blocked_ids i = some u := by
                rw [← dlookup_dictSet_ne y.d.blocked_ids id i (t' + y.d.blocked_ttl) hik]
                exact hb
              obtain ⟨j1, j2, j3⟩ := hIb i u hb' (lt_of_le_of_lt ht hu)
              exact ⟨j1, (dlookup_dictErase_ne y.inflight id i hik).trans j2,
                (dlookup_dictErase_ne y.d.pending_reconnect id i hik).trans j3⟩
        · have hd : (didDiscoverServices y.d id err svcs t').1 = y.d := by
            dsimp only [didDiscoverServices]
            rw [if_neg he, if_neg hh]
          rw [hd, if_neg he, if_neg hh]
          refine ⟨?_, ?_, ?_⟩
          · exact fun x hx1 hx2 => hI0 x hx1 hx2
          · intro i op h
            by_cases hik : i = id
            · subst hik
              exact hconn
            · rw [dlookup_dictSet_ne _ _ _ _ hik] at h
              exact hI5 i op h
          · intro i u hb hu
            obtain ⟨j1, j2, j3⟩ := hIb i u hb (lt_of_le_of_lt ht hu)
            by_cases hik : i = id
            · subst hik
              exact absurd (j2.symm.trans hfl) (by simp)
            · exact ⟨j1, by rw [dlookup_dictSet_ne _ _ _ _ hik]; exact j2, j3⟩
  | chars id err chs =>
      obtain ⟨hfl, hconn⟩ := hwf
      dsimp only [stepEv]
      by_cases he : err = true
      · have hd : (didDiscoverChars y.d id err chs t').1 = schedule_reconnect y.d id t' := by
          dsimp only [didDiscoverChars]
          rw [if_pos he]
        rw [hd]
        obtain ⟨q1, q2, q3, _⟩ := schedule_reconnect_frame y.d id t'
        refine ⟨?_, ?_, ?_⟩
        · intro x hx1 hx2
          rw [q1] at hx1
          rw [q2] at hx2
          exact hI0 x hx1 hx2
        · intro i op h
          by_cases hik : i = id
          · subst hik
            rw [dlookup_dictErase_self] at h
            exact Option.noConfusion h
          · rw [dlookup_dictErase_ne _ _ _ hik] at h
            rw [q1]
            exact hI5 i op h
        · intro i u hb hu
          rw [q3] at hb
          obtain ⟨j1, j2, j3⟩ := hIb i u hb (lt_of_le_of_lt ht hu)
          by_cases hik : i = id
          · subst hik
            exact absurd (j2.symm.trans hfl) (by simp)
          · refine ⟨?_, ?_, ?_⟩
            · rw [q2]
              exact j1
            · rw [dlookup_dictErase_ne _ _ _ hik]
              exact j2
            · rw [dlookup_schedule_ne _ _ _ _ hik]
              exact j3
      · by_cases hh : (chs.filter (fun u => decide (u = HR_MEAS))).isEmpty = true
        · have hd : (didDiscoverChars y.d id err chs t').1 = block_device y.d id t' := by
            dsimp only [didDiscoverChars]
            rw [if_neg he, if_pos hh]
          rw [hd]
          refine ⟨?_, ?_, ?_⟩
          · intro x hx1 hx2
            exact hI0 x hx1 hx2
          · intro i op h
            by_cases hik : i = id
            · subst hik
              rw [dlookup_dictErase_self] at h
              exact Option.noConfusion h
            · rw [dlookup_dictErase_ne _ _ _ hik] at h
              exact hI5 i op h
          · intro i u hb hu
            by_cases hik : i = id
            · subst hik
              exact ⟨hI0 i hconn, dlookup_dictErase_self _ _, dlookup_dictErase_self _ _⟩
            · have hb' : dlookup y.d.blocked_ids i = some u := by
                rw [← dlookup_dictSet_ne y.d.blocked_ids id i (t' + y.d.blocked_ttl) hik]
                exact hb
              obtain ⟨j1, j2, j3⟩ := hIb i u hb' (lt_of_le_of_lt ht hu)
              exact ⟨j1, (dlookup_dictErase_ne y.inflight id i hik).trans j2,
                (dlookup_dictErase_ne y.d.pending_reconnect id i hik).trans j3⟩
        · have hd : (didDiscoverChars y.d id err chs t').1 = y.d := by
            dsimp only [didDiscoverChars]
            rw [if_neg he, if_neg hh]
          rw [hd]
          refine ⟨?_, ?_, ?_⟩
          · exact fun x hx1 hx2 => hI0 x hx1 hx2
          · intro i op h
            by_cases hik : i = id
            · subst hik
              rw [dlookup_dictErase_self] at h
              exact Option.noConfusion h
            · rw [dlookup_dictErase_ne _ _ _ hik] at h
              exact hI5 i op h
          · intro i u hb hu
            obtain ⟨j1, j2, j3⟩ := hIb i u hb (lt_of_le_of_lt ht hu)
            by_cases hik : i = id
            · subst hik
              exact ⟨j1, dlookup_dictErase_self _ _, j3⟩
            · exact ⟨j1, by rw [dlookup_dictErase_ne _ _ _ hik]; exact j2, j3⟩
  | value id dn err v =>
      dsimp only [stepEv]
      obtain ⟨u1, u2, u3, u4, _⟩ := didUpdateValue_frame y.d id dn err v
      refine ⟨?_, ?_, ?_⟩
      · intro x hx1 hx2
        rw [u1] at hx1
        rw [u2] at hx2
        exact hI0 x hx1 hx2
      · intro i op h
        rw [u1]
        exact hI5 i op h
      · intro i u hb hu
        rw [u4] at hb
        obtain ⟨j1, j2, j3⟩ := hIb i u hb (lt_of_le_of_lt ht hu)
        refine ⟨?_, j2, ?_⟩
        · rw [u2]
          exact j1
        · rw [u3]
          exact j3
  | tickEv =>
      dsimp only [stepEv]
      by_cases hemp : y.d.pending_reconnect.isEmpty = true
      · have hd : (tick y.d t').1 = y.d := by
          dsimp only [tick]
          rw [if_pos hemp]
        rw [hd]
        refine ⟨fun x h1 h2 => hI0 x h1 h2, fun i op h => hI5 i op h, ?_⟩
        intro i u hb hu
        exact hIb i u hb (lt_of_le_of_lt ht hu)
      · by_cases hready : (!y.d.hasCentral || !y.d.poweredOn) = true
        · have hmap : (tick y.d t').1.pending_reconnect
              = y.d.pending_reconnect.map (fun p => (p.1, t' + y.d.reconnect_interval)) := by
            dsimp only [tick]
            rw [if_neg (by simp [hemp]), if_pos hready]
          have hd : (tick y.d t').1
              = { y.d with
                  pending_reconnect := (tick y.d t').1.pending_reconnect } := by
            dsimp only [tick]
            rw [if_neg (by simp [hemp]), if_pos hready]
          rw [hd]
          refine ⟨fun x h1 h2 => hI0 x h1 h2, fun i op h => hI5 i op h, ?_⟩
          intro i u hb hu
          obtain ⟨j1, j2, j3⟩ := hIb i u hb (lt_of_le_of_lt ht hu)
          refine ⟨j1, j2, ?_⟩
          show dlookup (tick y.d t').1.pending_reconnect i = none
          rw [hmap, dlookup_map_constval, j3]
          rfl
        · have hd : (tick y.d t').1 = (tickLoop y.d y.d.pending_reconnect t').1 := by
            dsimp only [tick]
            rw [if_neg (by simp [hemp]), if_neg hready]
          rw [hd]
          have hnb : ∀ p ∈ y.d.pending_reconnect, ¬ BlockedUnexpired y.d p.1 t' := by
            rintro ⟨k, v⟩ hp ⟨u, hu1, hu2⟩
            obtain ⟨-, -, j3⟩ := hIb k u hu1 (lt_of_le_of_lt ht hu2)
            have hsome := dlookup_isSome_of_mem hp
            rw [j3] at hsome
            exact Bool.noConfusion hsome
          obtain ⟨k1, k2, k3, k4⟩ := tickLoop_J y.d.pending_reconnect y.d t' hnb
          refine ⟨?_, ?_, ?_⟩
          · intro x hx1 hx2
            rw [k1] at hx1
            rcases k3 x hx2 with h | ⟨h1, _⟩
            · exact hI0 x hx1 h
            · exact h1 hx1
          · intro i op h
            rw [k1]
            exact hI5 i op h
          · intro i u hb hu
            rw [k2] at hb
            obtain ⟨j1, j2, j3⟩ := hIb i u hb (lt_of_le_of_lt ht hu)
            refine ⟨?_, j2, ?_⟩
            · intro hmm
              rcases k3 i hmm with h | ⟨_, h2⟩
              · exact j1 h
              · exact h2 ⟨u, hb, hu⟩
            · rw [k4 i ((dlookup_eq_none_iff _ _).mp j3)]
              exact j3

theorem Jinv_reach {y0 : Sys} {t0 : Time} {y : Sys} {t : Time}
    (h0 : InitOk y0) (hr : ReachSys y0 t0 y t) : Jinv y t := by
  induction hr with
  | refl =>
      obtain ⟨h1, h2, h3, h4, h5⟩ := h0
      refine ⟨?_, ?_, ?_⟩
      · intro id h
        rw [h1] at h
        simp at h
      · intro id op h
        rw [h5] at h
        simp [dlookup] at h
      · intro id u hb
        rw [h4] at hb
        simp [dlookup] at hb
  | step e hrec hle hwf ih => exact Jinv_step e ih hle hwf

/-- C3: in every reachable state a device with an unexpired block entry has
no pending-reconnect entry; blocking removes any pending entry while
installing the block; a disconnect callback under an active block leaves the
pending map untouched and requests nothing; and once the block has expired
the device is again subject only to the ordinary filters (the stale entry is
dropped), so it is eligible for rediscovery and reconnection. -/
theorem claim_C3_block_reconnect_exclusion :
    (∀ (y0 : Sys) (t0 : Time) (y : Sys) (t : Time), InitOk y0 → ReachSys y0 t0 y t →
      ∀ id u, dlookup y.d.blocked_ids id = some u → t < u →
        dlookup y.d.pending_reconnect id = none)
    ∧ (∀ (s : DState) (id : DeviceId) (now : Time),
        dlookup (block_device s id now).pending_reconnect id = none
        ∧ dlookup (block_device s id now).blocked_ids id = some (now + s.blocked_ttl))
    ∧ (∀ (s : DState) (id : DeviceId) (now u : Time),
        dlookup s.blocked_ids id = some u → now < u →
        (didDisconnect s id now).1.pending_reconnect = s.pending_reconnect
        ∧ (didDisconnect s id now).2 = [])
    ∧ (∀ (s : DState) (id : DeviceId) (dn an : Option String) (now u : Time),
        dlookup s.blocked_ids id = some u → ¬ now < u →
        (match_device s id dn an now).2 = matchFilters s id dn an
        ∧ dlookup (match_device s id dn an now).1.blocked_ids id = none) := by
  refine ⟨?_, ?_, ?_, ?_⟩
  · intro y0 t0 y t h0 hr id u hb hu
    exact ((Jinv_reach h0 hr).2.2 id u hb hu).2.2
  · intro s id now
    exact ⟨dlookup_dictErase_self _ _, dlookup_dictSet_self _ _ _⟩
  · intro s id now u hb hu
    refine ⟨(didDisconnect_pending s id now).2 u hb hu, ?_⟩
    dsimp only [didDisconnect]
    rw [hb]
    dsimp only
    rw [if_pos hu]
  · intro s id dn an now u hb hu
    dsimp only [match_device]
    rw [hb]
    dsimp only
    rw [if_neg hu]
    constructor
    · show matchFilters { s with blocked_ids := dictErase s.blocked_ids id } id dn an
        = matchFilters s id dn an
      rfl
    · exact dlookup_dictErase_self s.blocked_ids id

/-- Concrete system reaching a blocked device: A connects, then service
discovery finds no Heart Rate service, so A is blocked at time 0 for 60s. -/
def c3y4 : Sys := stepEv capY3 (Ev.services "A" false ["ABCD"]) 0

/-- The blocked run is a well-formed reachable execution. -/
theorem c3Reach : ReachSys capY0 0 c3y4 0 :=
  ReachSys.step (Ev.services "A" false ["ABCD"])
    (ReachSys.step (Ev.connectOk "A")
      (ReachSys.step (Ev.discover "A" none none)
        (ReachSys.step (Ev.updateState true []) ReachSys.refl (by decide) trivial)
        (by decide) trivial)
      (by decide) (show "A" ∈ capY2.d.connecting_ids by decide))
    (by decide)
    (show dlookup capY3.inflight "A" = some GOp.svc
        ∧ "A" ∈ capY3.d.connected_ids
        ∧ (List.filter (fun u => decide (u = HR_SERVICE)) ["ABCD"]).length ≤ 1 by
      exact ⟨by decide, by decide, by decide⟩)

/-- Witness for C3 on the concrete blocked run: device A is blocked until
time 60 with no pending entry; blocking erased the pending map entry; a
disconnect at time 10 (inside the block window) schedules nothing; and a
match at time 100 (after expiry) reduces to the plain filters. -/
theorem claim_C3_block_reconnect_exclusion_witness :
    dlookup c3y4.d.pending_reconnect "A" = none
    ∧ dlookup (block_device capY3.d "A" 0).pending_reconnect "A" = none
    ∧ (didDisconnect c3y4.d "A" 10).1.pending_reconnect = c3y4.d.pending_reconnect
    ∧ (match_device c3y4.d "A" none none 100).2 = matchFilters c3y4.d "A" none none := by
  refine ⟨?_, ?_, ?_, ?_⟩
  · exact claim_C3_block_reconnect_exclusion.1 capY0 0 c3y4 0
      ⟨rfl, rfl, rfl, rfl, rfl⟩ c3Reach "A" 60 (by decide) (by decide)
  · exact (claim_C3_block_reconnect_exclusion.2.1 capY3.d "A" 0).1
  · exact (claim_C3_block_reconnect_exclusion.2.2.1 c3y4.d "A" 10 60 (by decide) (by decide)).1
  · exact (claim_C3_block_reconnect_exclusion.2.2.2 c3y4.d "A" none none 100 60
      (by decide) (by decide)).1
